import Mathlib

/-!
# Verification model of `web/controller/api.go`

A shallow embedding of the API controller of the panel: the authentication
gate `checkAPIAuth` and the public expiry endpoint `getClientExpiryByUUID`,
together with the parts of the Go runtime and of the gin framework they use
(response writer, handler chain, `strings.TrimSpace`, int64 and binary64
arithmetic, `time` formatting).  External collaborators (session oracle,
expiry resolver, wall clock) are parameters.
-/

set_option linter.dupNamespace false

namespace Controller

/-! ## HTTP status codes (`net/http`) -/

def StatusOK : Nat := 200
def StatusBadRequest : Nat := 400
def StatusNotFound : Nat := 404
def StatusInternalServerError : Nat := 500

/-! ## JSON payloads -/

/-- Values stored in a `gin.H` (`map[string]any`) by this controller. -/
inductive Any where
  | str (s : String)
  | int64 (i : Int)
  | bool (b : Bool)
  deriving DecidableEq, Repr

/-- The map `gin.H`, kept as an association list with unique keys. -/
abbrev H := List (String × Any)

/-- Map assignment `m[k] = v`: replaces the value of an existing key, adds the key otherwise. -/
def H.set : H → String → Any → H
  | [], k, v => [(k, v)]
  | (k0, v0) :: m, k, v => if k0 = k then (k0, v) :: m else (k0, v0) :: H.set m k v

/-- Map lookup `m[k]`. -/
def H.get : H → String → Option Any
  | [], _ => none
  | (k0, v0) :: m, k => if k0 = k then some v0 else H.get m k

/-- The keys of the map. -/
def H.keys (m : H) : List String := m.map Prod.fst

/-- Modelled from the spec: the response envelope `entity.Msg` of the shared
response helper (declared outside `api.go`): a boolean success flag, a
human-readable message and, for object responses, the carried object. -/
structure Msg where
  Success : Bool
  Msg : String
  Obj : Option H
  deriving DecidableEq, Repr

/-! ## The gin response writer and context -/

/-- State of gin's `responseWriter`: the status, whether the header has been
written (`size != noWritten`) and the payloads rendered into the body so far. -/
structure ResponseWriter where
  status : Nat
  written : Bool
  body : List Msg
  deriving DecidableEq, Repr

/-- The method `responseWriter.WriteHeader`: the status changes only while the header is unwritten. -/
def ResponseWriter.WriteHeader (w : ResponseWriter) (code : Nat) : ResponseWriter :=
  if 0 < code ∧ w.status ≠ code then
    if w.written then w else { w with status := code }
  else w

/-- The method `responseWriter.WriteHeaderNow`. -/
def ResponseWriter.WriteHeaderNow (w : ResponseWriter) : ResponseWriter :=
  if !w.written then { w with written := true } else w

/-- The method `responseWriter.Write`: writes the header if needed, then appends to the body. -/
def ResponseWriter.Write (w : ResponseWriter) (data : Msg) : ResponseWriter :=
  let w1 := w.WriteHeaderNow
  { w1 with body := w1.body ++ [data] }

/-- The handler index at which gin stops a chain (`abortIndex = math.MaxInt8 >> 1`). -/
def abortIndex : Int := 63

/-- The part of `gin.Context` the controller touches.  `Params` and `queryCache` are
the route parameters and the parsed query string of the request, `Keys` the
per-request values set by earlier middleware (the session among them); `resolverCalls` is
ghost state recording, in order, the arguments passed to the expiry resolver. -/
structure Context where
  Params : List (String × String)
  queryCache : List (String × String)
  Keys : List (String × String)
  index : Int
  Writer : ResponseWriter
  resolverCalls : List String
  deriving DecidableEq, Repr

/-- First value stored under `key`, or the empty string. -/
def lookupFirst : List (String × String) → String → String
  | [], _ => ""
  | (k, v) :: rest, key => if k = key then v else lookupFirst rest key

/-- The method `c.Param(key)`: the route parameter, `""` when absent. -/
def Context.Param (c : Context) (key : String) : String := lookupFirst c.Params key

/-- The method `c.Query(key)`: the first query value, `""` when absent. -/
def Context.Query (c : Context) (key : String) : String := lookupFirst c.queryCache key

/-- The method `c.Status(code)`. -/
def Context.Status (c : Context) (code : Nat) : Context :=
  { c with Writer := c.Writer.WriteHeader code }

/-- The method `c.Abort()`. -/
def Context.Abort (c : Context) : Context := { c with index := abortIndex }

/-- The method `c.AbortWithStatus(code)`: status, header written at once, chain aborted. -/
def Context.AbortWithStatus (c : Context) (code : Nat) : Context :=
  let c1 := c.Status code
  let c2 := { c1 with Writer := c1.Writer.WriteHeaderNow }
  c2.Abort

/-- The function `bodyAllowedForStatus` of gin. -/
def bodyAllowedForStatus (status : Nat) : Bool :=
  if 100 ≤ status ∧ status ≤ 199 then false
  else if status = 204 then false
  else if status = 304 then false
  else true

/-- The method `c.JSON(code, obj)`: sets the status and renders `obj` into the body. -/
def Context.JSON (c : Context) (code : Nat) (obj : Msg) : Context :=
  let c1 := c.Status code
  if !bodyAllowedForStatus code then
    { c1 with Writer := c1.Writer.WriteHeaderNow }
  else
    { c1 with Writer := c1.Writer.Write obj }

/-- A gin handler.  The first argument stands for `c.Next()`, the run of the
rest of the chain, which yields no context when the chain does not finish. -/
abbrev HandlerFunc := (Context → Option Context) → Context → Option Context

/-- The loop of `c.Next()`: `for c.index < len(handlers) { handlers[c.index](c); c.index++ }`,
bounded by `fuel` (nested calls of `Next` by the handlers included).  A negative
index, at which the Go loop panics, yields no context. -/
def Context.loop (handlers : List HandlerFunc) : Nat → Context → Option Context
  | 0, _ => none
  | fuel + 1, c =>
    if c.index < 0 then none
    else if c.index < handlers.length then
      match handlers[c.index.toNat]? with
      | none => none
      | some h =>
        match h (fun c1 => Context.loop handlers fuel { c1 with index := c1.index + 1 }) c with
        | none => none
        | some c2 => Context.loop handlers fuel { c2 with index := c2.index + 1 }
    else some c

/-- The method `c.Next()`: `c.index++` followed by the loop. -/
def Context.Next (handlers : List HandlerFunc) (fuel : Nat) (c : Context) : Option Context :=
  Context.loop handlers fuel { c with index := c.index + 1 }

/-! ## The authentication gate -/

/-- The middleware `checkAPIAuth`; `IsLogin` is the session oracle `session.IsLogin`. -/
def checkAPIAuth (IsLogin : Context → Bool) : HandlerFunc := fun Next c =>
  if !IsLogin c then
    some (c.AbortWithStatus StatusNotFound)
  else
    Next c

/-! ## `strings.TrimSpace` -/

/-- The predicate `unicode.IsSpace`: the Latin-1 spaces and the code points with
the Unicode property White_Space. -/
def IsSpace (r : Char) : Bool :=
  let n := r.toNat
  if n ≤ 0xFF then
    n = 0x09 || n = 0x0A || n = 0x0B || n = 0x0C || n = 0x0D || n = 0x20 || n = 0x85 || n = 0xA0
  else
    n = 0x1680 || (0x2000 ≤ n && n ≤ 0x200A) || n = 0x2028 || n = 0x2029 || n = 0x202F
      || n = 0x205F || n = 0x3000

/-- The function `strings.TrimLeftFunc(s, unicode.IsSpace)` on the runes of `s`. -/
def trimLeft : List Char → List Char
  | [] => []
  | r :: rest => if IsSpace r then trimLeft rest else r :: rest

/-- The function `strings.TrimRightFunc(s, unicode.IsSpace)` on the runes of `s`. -/
def trimRight (s : List Char) : List Char := (trimLeft s.reverse).reverse

/-- The function `strings.TrimSpace`: `s` without leading and trailing white space. -/
def TrimSpace (s : String) : String := String.mk (trimRight (trimLeft s.data))

/-! ## int64 arithmetic -/

/-- Membership in the range of `int64`. -/
def isInt64 (x : Int) : Prop := -(2 : Int) ^ 63 ≤ x ∧ x < (2 : Int) ^ 63

instance (x : Int) : Decidable (isInt64 x) := by unfold isInt64; infer_instance

/-- Two's-complement reduction of an integer to `int64`. -/
def wrap64 (x : Int) : Int := (x + 2 ^ 63) % 2 ^ 64 - 2 ^ 63

/-- Go's `a - b` on `int64`, which wraps around on overflow. -/
def sub64 (a b : Int) : Int := wrap64 (a - b)

/-! ## binary64 arithmetic -/

/-- A finite IEEE-754 binary64 value, `(-1)^neg * mant * 2^exp`.  Infinities and
NaN are not represented: every operation below is applied to operands whose
result is finite (int64 values and their quotient by a non-zero constant). -/
structure Float64 where
  neg : Bool
  mant : Nat
  exp : Int
  deriving DecidableEq, Repr

/-- The integer nearest to `n / d`, ties to the even one. -/
def roundHalfEven (n d : Nat) : Nat :=
  let q := n / d
  let r := n % d
  if 2 * r < d then q
  else if d < 2 * r then q + 1
  else if q % 2 = 0 then q
  else q + 1

/-- Halving count: `log2Aux fuel n` is the floor of the binary logarithm of `n` when `n ≤ fuel`. -/
def log2Aux : Nat → Nat → Nat
  | 0, _ => 0
  | fuel + 1, n => if 2 ≤ n then log2Aux fuel (n / 2) + 1 else 0

/-- The floor of the binary logarithm of a positive natural number (`bits.Len64(n) - 1`). -/
def log2 (n : Nat) : Nat := log2Aux n n

/-- The floor of the binary logarithm of `a / d`, for positive `a` and `d`. -/
def ilog2 (a d : Nat) : Int :=
  let k : Int := (log2 a : Int) - (log2 d : Int)
  if 0 ≤ k then
    if d * 2 ^ k.toNat ≤ a then k else k - 1
  else
    if d ≤ a * 2 ^ (-k).toNat then k else k - 1

/-- Rounding of the rational `a / d` (with sign `neg`) to binary64, to nearest
with ties to even: 53 significant bits, the exponent of the last place not
below `-1074` (subnormal range). -/
def roundNearestEven (neg : Bool) (a d : Nat) : Float64 :=
  if a = 0 then { neg := neg, mant := 0, exp := 0 }
  else
    let e : Int := max (ilog2 a d - 52) (-1074)
    let m : Nat :=
      if 0 ≤ e then roundHalfEven a (d * 2 ^ e.toNat)
      else roundHalfEven (a * 2 ^ (-e).toNat) d
    { neg := neg, mant := m, exp := e }

/-- The conversion `float64(x)` of an `int64`. -/
def Float64.ofInt64 (x : Int) : Float64 :=
  roundNearestEven (decide (x < 0)) x.natAbs 1

/-- The quotient `x / y` of binary64 values, for `y` non-zero. -/
def Float64.div (x y : Float64) : Float64 :=
  let s : Int := x.exp - y.exp
  let a : Nat := if 0 ≤ s then x.mant * 2 ^ s.toNat else x.mant
  let d : Nat := if 0 ≤ s then y.mant else y.mant * 2 ^ (-s).toNat
  roundNearestEven (xor x.neg y.neg) a d

/-- The function `math.Ceil`: the least integral value not below `x`. -/
def Ceil (x : Float64) : Float64 :=
  if 0 ≤ x.exp then x
  else
    let p : Nat := 2 ^ (-x.exp).toNat
    if x.neg then { neg := true, mant := x.mant / p, exp := 0 }
    else { neg := false, mant := (x.mant + p - 1) / p, exp := 0 }

/-- The conversion `int64(x)`: truncation toward zero; a value outside the range
of `int64` gives the minimum of `int64` (the behaviour on amd64). -/
def Float64.toInt64 (x : Float64) : Int :=
  let mag : Int :=
    if 0 ≤ x.exp then (x.mant : Int) * 2 ^ x.exp.toNat
    else (x.mant : Int) / 2 ^ (-x.exp).toNat
  let v : Int := if x.neg then -mag else mag
  if isInt64 v then v else -(2 : Int) ^ 63

/-- The constant `86400000.0`. -/
def msPerDay : Float64 := { neg := false, mant := 86400000, exp := 0 }

/-- The expression `int64(math.Ceil(float64(remainingMs) / 86400000.0))`. -/
def daysRemainingOf (remainingMs : Int) : Int :=
  Float64.toInt64 (Ceil (Float64.div (Float64.ofInt64 remainingMs) msPerDay))

/-! ## `time`: calendar date of an instant -/

/-- A `time.Time` in UTC: seconds and nanoseconds since the Unix epoch. -/
structure Time where
  sec : Int
  nsec : Int
  deriving DecidableEq, Repr

/-- The function `time.Unix(sec, nsec)`, with Go's truncating `/`. -/
def Unix (sec nsec : Int) : Time :=
  if nsec < 0 ∨ 1000000000 ≤ nsec then
    let n := Int.tdiv nsec 1000000000
    let sec1 := sec + n
    let nsec1 := nsec - n * 1000000000
    if nsec1 < 0 then { sec := sec1 - 1, nsec := nsec1 + 1000000000 }
    else { sec := sec1, nsec := nsec1 }
  else { sec := sec, nsec := nsec }

/-- The function `time.UnixMilli(msec)`. -/
def UnixMilli (msec : Int) : Time :=
  Unix (Int.tdiv msec 1000) (Int.tmod msec 1000 * 1000000)

def secondsPerDay : Nat := 86400
def daysPer400Years : Nat := 365 * 400 + 97
def daysPer100Years : Nat := 365 * 100 + 24
def daysPer4Years : Nat := 365 * 4 + 1
def absoluteZeroYear : Int := -292277022399
def unixToInternal : Int := (1969 * 365 + 1969 / 4 - 1969 / 100 + 1969 / 400) * 86400
def internalToAbsolute : Int := 9223371966579724800

/-- The method `Time.abs`: seconds since the absolute zero year, as a `uint64`. -/
def Time.abs (t : Time) : Nat := ((t.sec + (unixToInternal + internalToAbsolute)) % 2 ^ 64).toNat

/-- The function `isLeap`. -/
def isLeap (year : Int) : Bool :=
  Int.tmod year 4 = 0 && (Int.tmod year 100 ≠ 0 || Int.tmod year 400 = 0)

/-- The table `daysBefore`: days in a non-leap year before the month begins. -/
def daysBefore : List Nat := [0, 31, 59, 90, 120, 151, 181, 212, 243, 273, 304, 334, 365]

/-- The function `absDate(abs, true)`: year, month (1 to 12) and day of the month. -/
def absDate (abs : Nat) : Int × Nat × Nat :=
  -- Split into time and day.
  let d := abs / secondsPerDay
  -- Account for 400 year cycles.
  let n := d / daysPer400Years
  let y := 400 * n
  let d := d - daysPer400Years * n
  -- Cut off 100-year cycles.
  let n := d / daysPer100Years
  let n := n - n / 4
  let y := y + 100 * n
  let d := d - daysPer100Years * n
  -- Cut off 4-year cycles.
  let n := d / daysPer4Years
  let y := y + 4 * n
  let d := d - daysPer4Years * n
  -- Cut off years within a 4-year cycle.
  let n := d / 365
  let n := n - n / 4
  let y := y + n
  let d := d - 365 * n
  let year : Int := wrap64 ((y : Int) + absoluteZeroYear)
  let day := d
  if isLeap year ∧ day = 31 + 29 - 1 then
    -- Leap day.
    (year, 2, 29)
  else
    -- After leap day; pretend it was not there.
    let day := if isLeap year ∧ 31 + 29 - 1 < day then day - 1 else day
    -- Estimate month on assumption that every month has 31 days.
    let month := day / 31
    let e := daysBefore.getD (month + 1) 0
    if e ≤ day then (year, month + 2, day - e + 1)
    else (year, month + 1, day - daysBefore.getD month 0 + 1)

/-- The decimal digit `d` as a character. -/
def digitChar (d : Nat) : Char := Char.ofNat (48 + d % 10)

/-- Decimal digits of `u`, most significant first, in front of `acc`. -/
def decimalAux : Nat → Nat → List Char → List Char
  | 0, _, acc => acc
  | fuel + 1, u, acc =>
    if u < 10 then digitChar u :: acc
    else decimalAux fuel (u / 10) (digitChar u :: acc)

/-- The function `appendInt(b, x, width)` of package `time`: the decimal form
of `x`, padded with zeros to `width` digits, after a minus sign when negative. -/
def appendInt (b : List Char) (x : Int) (width : Nat) : List Char :=
  let u := x.natAbs
  let digits := decimalAux (u + 1) u []
  let sign := if x < 0 then [(Char.ofNat 45)] else []
  b ++ sign ++ List.replicate (width - digits.length) (Char.ofNat 48) ++ digits

/-- The call `t.Format("2006-01-02")`: year, month and day separated by hyphens. -/
def Time.Format (t : Time) : String :=
  let (year, month, day) := absDate t.abs
  let b := appendInt [] year 4
  let b := appendInt (b ++ [(Char.ofNat 45)]) month 2
  let b := appendInt (b ++ [(Char.ofNat 45)]) day 2
  String.mk b

/-! ## The shared response helpers -/

/-- Modelled from the spec: the helper `pureJsonMsg` (declared outside `api.go`)
answers with the given status and an envelope carrying the success flag and
the message, and no object. -/
def pureJsonMsg (c : Context) (statusCode : Nat) (success : Bool) (msg : String) : Context :=
  c.JSON statusCode { Success := success, Msg := msg, Obj := none }

/-- Modelled from the spec: the helper `jsonObj` (declared outside `api.go`)
answers HTTP 200 with the object as the payload of the envelope; without an
error the success flag is set and the message is empty, with an error the flag
is cleared and the message is the error text. -/
def jsonObj (c : Context) (obj : H) (err : Option String) : Context :=
  match err with
  | none => c.JSON StatusOK { Success := true, Msg := "", Obj := some obj }
  | some e => c.JSON StatusOK { Success := false, Msg := e, Obj := some obj }

/-! ## The expiry endpoint -/

/-- The handler `getClientExpiryByUUID`.  The resolver
`inboundService.GetClientExpiryByUUID` answers an expiry time, a found flag and
an optional error; `now` is the reading `time.Now().UnixMilli()` of the clock. -/
def getClientExpiryByUUID (GetClientExpiryByUUID : String → Int × Bool × Option String)
    (now : Int) (c : Context) : Context :=
  let uuid := TrimSpace (c.Param "uuid")
  let uuid := if uuid = "" then TrimSpace (c.Query "uuid") else uuid
  if uuid = "" then
    pureJsonMsg c StatusBadRequest false "uuid is required"
  else
    let (expiryTime, found, err) := GetClientExpiryByUUID uuid
    let c := { c with resolverCalls := c.resolverCalls ++ [uuid] }
    if err.isSome then
      pureJsonMsg c StatusInternalServerError false "failed to query expiry time"
    else if !found then
      pureJsonMsg c StatusNotFound false "uuid not found"
    else
      let response : H := [("uuid", Any.str uuid), ("expiryTime", Any.int64 expiryTime)]
      let response :=
        if expiryTime > 0 then
          let expiryDateTime := UnixMilli expiryTime
          let response := response.set "expiryDate" (Any.str expiryDateTime.Format)
          let remainingMs := sub64 expiryTime now
          let response := response.set "daysRemaining" (Any.int64 (daysRemainingOf remainingMs))
          response.set "expired" (Any.bool (decide (remainingMs ≤ 0)))
        else
          response.set "expired" (Any.bool false)
      jsonObj c response none

/-- A handler that does not call `c.Next()`, as an entry of a handler chain. -/
def terminal (h : Context → Context) : HandlerFunc := fun _ c => some (h c)

/-- The object carried by the payload written last, if any: the ExpirySummary of a 200 response. -/
def Context.emitted (c : Context) : Option H := c.Writer.body.getLast?.bind Msg.Obj

/-- A field of the emitted object. -/
def Context.field (c : Context) (key : String) : Option Any :=
  c.emitted.bind (fun obj => H.get obj key)

/-- The context gin hands to a chain for a new request (`Context.reset`):
index `-1`, status 200, nothing written. -/
def newContext (params query keys : List (String × String)) : Context :=
  { Params := params, queryCache := query, Keys := keys, index := -1,
    Writer := { status := StatusOK, written := false, body := [] }, resolverCalls := [] }

/-! ## Route registration (`gin.RouterGroup`) -/

/-- The elements of a path between its slashes. -/
def splitSlash : List Char → List (List Char)
  | [] => [[]]
  | r :: rest =>
    if r = Char.ofNat 47 then [] :: splitSlash rest
    else
      match splitSlash rest with
      | [] => [[r]]
      | elem :: elems => (r :: elem) :: elems

/-- The elements kept by `path.Clean`: empty and `.` elements are dropped, a
`..` element removes the element before it, or is dropped at the root. -/
def cleanElems (rooted : Bool) : List (List Char) → List (List Char) → List (List Char)
  | out, [] => out.reverse
  | out, elem :: rest =>
    if elem = [] ∨ elem = [Char.ofNat 46] then cleanElems rooted out rest
    else if elem = [Char.ofNat 46, Char.ofNat 46] then
      match out with
      | prev :: out1 =>
        if prev = [Char.ofNat 46, Char.ofNat 46] then cleanElems rooted (elem :: out) rest
        else cleanElems rooted out1 rest
      | [] => if rooted then cleanElems rooted [] rest else cleanElems rooted [elem] rest
    else cleanElems rooted (elem :: out) rest

/-- The function `path.Clean`. -/
def Clean (path : String) : String :=
  if path = "" then "."
  else
    let rooted : Bool := path.data.head? = some (Char.ofNat 47)
    let body := List.intercalate [Char.ofNat 47] (cleanElems rooted [] (splitSlash path.data))
    if rooted then String.mk (Char.ofNat 47 :: body)
    else if body = [] then "."
    else String.mk body

/-- The function `path.Join` for two elements. -/
def Join (a b : String) : String :=
  if a = "" ∧ b = "" then ""
  else if a = "" then Clean b
  else Clean (String.mk (a.data ++ Char.ofNat 47 :: b.data))

/-- The function `joinPaths` of gin. -/
def joinPaths (absolutePath relativePath : String) : String :=
  if relativePath = "" then absolutePath
  else
    let finalPath := Join absolutePath relativePath
    if relativePath.data.getLast? = some (Char.ofNat 47)
        ∧ finalPath.data.getLast? ≠ some (Char.ofNat 47) then
      String.mk (finalPath.data ++ [Char.ofNat 47])
    else finalPath

/-- The handlers that occur in the route table, by name: the three of this
controller, and those of other controllers and middleware. -/
inductive Handler where
  | checkAPIAuth
  | getClientExpiryByUUID
  | BackuptoTgbot
  | other (name : String)
  deriving DecidableEq, Repr

/-- An entry of the engine's route table (`gin.RouteInfo` with its chain). -/
structure RouteInfo where
  Method : String
  Path : String
  Handlers : List Handler
  deriving DecidableEq, Repr

/-- The struct `gin.RouterGroup`: the middleware of the group and its base path. -/
structure RouterGroup where
  Handlers : List Handler
  basePath : String
  deriving DecidableEq, Repr

/-- The method `group.combineHandlers` (its assertion on the length of the chain,
a panic at start-up, is left out). -/
def RouterGroup.combineHandlers (group : RouterGroup) (handlers : List Handler) : List Handler :=
  group.Handlers ++ handlers

/-- The method `group.calculateAbsolutePath`. -/
def RouterGroup.calculateAbsolutePath (group : RouterGroup) (relativePath : String) : String :=
  joinPaths group.basePath relativePath

/-- The method `group.Group(relativePath)`: a new group that copies the middleware. -/
def RouterGroup.Group (group : RouterGroup) (relativePath : String) : RouterGroup :=
  { Handlers := group.combineHandlers [],
    basePath := group.calculateAbsolutePath relativePath }

/-- The method `group.Use(middleware...)`, which extends the group in place. -/
def RouterGroup.Use (group : RouterGroup) (middleware : List Handler) : RouterGroup :=
  { group with Handlers := group.Handlers ++ middleware }

/-- The method `group.handle`: adds the route with the combined chain to the engine. -/
def RouterGroup.handle (group : RouterGroup) (engine : List RouteInfo)
    (httpMethod relativePath : String) (handlers : List Handler) : List RouteInfo :=
  engine ++ [{ Method := httpMethod,
               Path := group.calculateAbsolutePath relativePath,
               Handlers := group.combineHandlers handlers }]

/-- The method `group.GET(relativePath, handler)`. -/
def RouterGroup.GET (group : RouterGroup) (engine : List RouteInfo) (relativePath : String)
    (handler : Handler) : List RouteInfo :=
  group.handle engine "GET" relativePath [handler]

/-- A route a sub-controller registers on its group: method, relative path and
its own chain. -/
structure Registration where
  Method : String
  Path : String
  Handlers : List Handler
  deriving DecidableEq, Repr

/-- Modelled from the spec: the constructors `NewInboundController` and
`NewServerController` (declared outside `api.go`) register the delegated routes
of their controller on the group they are given. -/
def registerRoutes (routes : List Registration) (group : RouterGroup)
    (engine : List RouteInfo) : List RouteInfo :=
  routes.foldl (fun e r => group.handle e r.Method r.Path r.Handlers) engine

/-- The method `initRouter`; `inboundRoutes` and `serverRoutes` are what the two
sub-controllers register, `engine` the route table built so far. -/
def initRouter (inboundRoutes serverRoutes : List Registration) (g : RouterGroup)
    (engine : List RouteInfo) : List RouteInfo :=
  -- Public API group (no authentication required)
  let public := g.Group "/panel/api/public"
  let engine := public.GET engine "/client-expiry" Handler.getClientExpiryByUUID
  let engine := public.GET engine "/client-expiry/:uuid" Handler.getClientExpiryByUUID
  -- Main API group
  let api := g.Group "/panel/api"
  let api := api.Use [Handler.checkAPIAuth]
  -- Inbounds API
  let inbounds := api.Group "/inbounds"
  let engine := registerRoutes inboundRoutes inbounds engine
  -- Server API
  let server := api.Group "/server"
  let engine := registerRoutes serverRoutes server engine
  -- Extra routes
  api.GET engine "/backuptotgbot" Handler.BackuptoTgbot

/-! ## The calendar date of the specification

The spec asks for "the UTC calendar date (YYYY-MM-DD) of that instant".  The
definitions below state that notion on its own, in the Gregorian calendar, for
comparison with the date computed by `time`. -/

/-- Spec: a year is a leap year when it is a multiple of 4 and not of 100, or a multiple of 400. -/
def specLeapYear (year : Nat) : Bool :=
  decide (year % 4 = 0 ∧ (year % 100 ≠ 0 ∨ year % 400 = 0))

/-- Spec: the number of days of a year. -/
def specDaysInYear (year : Nat) : Nat := if specLeapYear year then 366 else 365

/-- Spec: the number of days of a month (1 to 12) of a year. -/
def specDaysInMonth (year month : Nat) : Nat :=
  if month = 2 then (if specLeapYear year then 29 else 28)
  else if month = 4 ∨ month = 6 ∨ month = 9 ∨ month = 11 then 30
  else 31

/-- Spec: `year`-`month`-`day` is a date of the calendar. -/
def specValidDate (year month day : Nat) : Prop :=
  1 ≤ month ∧ month ≤ 12 ∧ 1 ≤ day ∧ day ≤ specDaysInMonth year month

/-- Spec: the days from 1 January 1970 to 1 January of the year `1970 + n`. -/
def specDaysBeforeYear : Nat → Nat
  | 0 => 0
  | n + 1 => specDaysBeforeYear n + specDaysInYear (1970 + n)

/-- Spec: the days of `year` before its month `month` begins. -/
def specDaysBeforeMonth (year : Nat) : Nat → Nat
  | 0 => 0
  | m + 1 => specDaysBeforeMonth year m + (if m = 0 then 0 else specDaysInMonth year m)

/-- Spec: the number of days from 1 January 1970 to the date, for a year from 1970 on. -/
def specDayNumber (year month day : Nat) : Nat :=
  specDaysBeforeYear (year - 1970) + specDaysBeforeMonth year month + (day - 1)

/-- Spec: a decimal digit as a character. -/
def specDigit (n : Nat) : Char := Char.ofNat (48 + n % 10)

/-- Spec: the form YYYY-MM-DD: four digits of the year, two of the month, two
of the day, separated by hyphens. -/
def specISODate (year month day : Nat) : String :=
  String.mk [specDigit (year / 1000), specDigit (year / 100), specDigit (year / 10),
    specDigit year, Char.ofNat 45, specDigit (month / 10), specDigit month, Char.ofNat 45,
    specDigit (day / 10), specDigit day]

/-! ## Lemmas on the response writer -/

theorem WriteHeader_unwritten (w : ResponseWriter) (code : Nat) (hw : w.written = false)
    (hc : 0 < code) :
    w.WriteHeader code = { status := code, written := false, body := w.body } := by
  obtain ⟨st, wr, bd⟩ := w
  simp only at hw
  subst hw
  by_cases h : st = code
  · simp [ResponseWriter.WriteHeader, h]
  · simp [ResponseWriter.WriteHeader, h, hc]

theorem JSON_unwritten (c : Context) (code : Nat) (m : Msg) (hw : c.Writer.written = false)
    (hc : 0 < code) (hb : bodyAllowedForStatus code = true) :
    c.JSON code m
      = { c with Writer := { status := code, written := true, body := c.Writer.body ++ [m] } } := by
  simp [Context.JSON, Context.Status, hb, WriteHeader_unwritten c.Writer code hw hc,
    ResponseWriter.Write, ResponseWriter.WriteHeaderNow]

theorem AbortWithStatus_unwritten (c : Context) (code : Nat) (hw : c.Writer.written = false)
    (hc : 0 < code) :
    c.AbortWithStatus code
      = { c with index := abortIndex,
                 Writer := { status := code, written := true, body := c.Writer.body } } := by
  simp [Context.AbortWithStatus, Context.Status, Context.Abort,
    WriteHeader_unwritten c.Writer code hw hc, ResponseWriter.WriteHeaderNow]

/-! ## White space -/

theorem trimLeft_eq_nil (l : List Char) : trimLeft l = [] ↔ ∀ r ∈ l, IsSpace r = true := by
  induction l with
  | nil => simp [trimLeft]
  | cons a rest ih =>
    unfold trimLeft
    by_cases ha : IsSpace a = true
    · simp [ha, ih]
    · simp [ha]

theorem trimLeft_head (l : List Char) : ∀ r ∈ (trimLeft l).head?, IsSpace r = false := by
  induction l with
  | nil => simp [trimLeft]
  | cons a rest ih =>
    unfold trimLeft
    by_cases ha : IsSpace a = true
    · simpa [ha] using ih
    · simp [ha]

theorem TrimSpace_eq_empty (s : String) :
    TrimSpace s = "" ↔ ∀ r ∈ s.data, IsSpace r = true := by
  have h1 : TrimSpace s = "" ↔ trimRight (trimLeft s.data) = [] := by
    unfold TrimSpace
    constructor
    · intro h
      exact congrArg String.data h
    · intro h
      rw [h]
  rw [h1, ← trimLeft_eq_nil]
  unfold trimRight
  rw [List.reverse_eq_nil_iff, trimLeft_eq_nil]
  constructor
  · intro h
    cases hl : trimLeft s.data with
    | nil => rfl
    | cons a rest =>
      exfalso
      have ha := trimLeft_head s.data a (by simp [hl])
      have hs := h a (by simp [hl])
      rw [ha] at hs
      exact Bool.false_ne_true hs
  · intro h
    simp [h]

/-! ## The authentication gate -/

/-- C1: when the session oracle answers false for a request whose response has
not been started, `checkAPIAuth` answers with status 404, adds nothing to the
body and aborts the chain; it does so without calling `c.Next()` (the result is
the same for every continuation), and in gin's handler loop no later handler
runs, whatever the chain around the gate and the request. -/
theorem checkAPIAuth_unauthenticated (IsLogin : Context → Bool) (c : Context)
    (hlogin : IsLogin c = false) (hw : c.Writer.written = false) :
    (∀ next : Context → Option Context,
      checkAPIAuth IsLogin next c
        = some { c with index := abortIndex,
                        Writer := { status := 404, written := true, body := c.Writer.body } })
    ∧ (∀ (handlers : List HandlerFunc) (fuel : Nat),
        0 ≤ c.index → handlers[c.index.toNat]? = some (checkAPIAuth IsLogin) →
        (handlers.length : Int) < abortIndex →
        Context.loop handlers (fuel + 2) c
          = some { c with index := abortIndex + 1,
                          Writer := { status := 404, written := true, body := c.Writer.body } }) := by
  have key : ∀ next : Context → Option Context,
      checkAPIAuth IsLogin next c
        = some { c with index := abortIndex,
                        Writer := { status := 404, written := true, body := c.Writer.body } } := by
    intro next
    simp [checkAPIAuth, hlogin, StatusNotFound, AbortWithStatus_unwritten c 404 hw (by decide)]
  refine ⟨key, ?_⟩
  intro handlers fuel h0 hget hlen
  have hlt : c.index < handlers.length := by
    have := (List.getElem?_eq_some_iff.mp hget).1
    omega
  have hnot : ¬ (c.index < 0) := by omega
  have hstop : ¬ (abortIndex + 1 < (handlers.length : Int)) := by
    unfold abortIndex at hlen ⊢; omega
  have hstop0 : ¬ (abortIndex + 1 < 0) := by decide
  rw [Context.loop]
  simp only [hnot, hlt, hget, key, if_true, if_false]
  rw [Context.loop]
  simp only [hstop, hstop0, if_false]

/-- C10: when the session oracle answers true, `checkAPIAuth` does nothing but
call `c.Next()` on the unchanged context: its result is exactly the result of
the rest of the chain; in gin's handler loop a step at the gate equals the run
of the handlers after it on the same context, and with one final handler behind
the gate the chain ends with exactly what that handler makes of the context. -/
theorem checkAPIAuth_authenticated (IsLogin : Context → Bool) (c : Context)
    (hlogin : IsLogin c = true) :
    (∀ next : Context → Option Context, checkAPIAuth IsLogin next c = next c)
    ∧ (∀ (handlers : List HandlerFunc) (fuel : Nat),
        0 ≤ c.index → handlers[c.index.toNat]? = some (checkAPIAuth IsLogin) →
        Context.loop handlers (fuel + 1) c
          = (Context.loop handlers fuel { c with index := c.index + 1 }).bind
              (fun c2 => Context.loop handlers fuel { c2 with index := c2.index + 1 }))
    ∧ (∀ (handlers : List HandlerFunc) (h : Context → Context) (fuel : Nat),
        0 ≤ c.index → handlers[c.index.toNat]? = some (checkAPIAuth IsLogin) →
        handlers[c.index.toNat + 1]? = some (terminal h) →
        (handlers.length : Int) = c.index + 2 →
        (h { c with index := c.index + 1 }).index = c.index + 1 →
        Context.loop handlers (fuel + 3) c
          = some { h { c with index := c.index + 1 } with index := c.index + 3 }) := by
  have key : ∀ next : Context → Option Context, checkAPIAuth IsLogin next c = next c := by
    intro next
    simp [checkAPIAuth, hlogin]
  have step : ∀ (handlers : List HandlerFunc) (fuel : Nat),
      0 ≤ c.index → handlers[c.index.toNat]? = some (checkAPIAuth IsLogin) →
      Context.loop handlers (fuel + 1) c
        = (Context.loop handlers fuel { c with index := c.index + 1 }).bind
            (fun c2 => Context.loop handlers fuel { c2 with index := c2.index + 1 }) := by
    intro handlers fuel h0 hget
    have hlt : c.index < handlers.length := by
      have := (List.getElem?_eq_some_iff.mp hget).1
      omega
    have hnot : ¬ (c.index < 0) := by omega
    rw [Context.loop]
    simp only [hnot, hlt, hget, key, if_true, if_false]
    cases Context.loop handlers fuel { c with index := c.index + 1 } <;> rfl
  refine ⟨key, step, ?_⟩
  intro handlers h fuel h0 hget hnext hlen hidx
  have e1 : (c.index + 1).toNat = c.index.toNat + 1 := by omega
  have inner : Context.loop handlers (fuel + 2) { c with index := c.index + 1 }
      = some { h { c with index := c.index + 1 } with index := c.index + 2 } := by
    rw [Context.loop]
    have n1 : ¬ (c.index + 1 < 0) := by omega
    have n2 : c.index + 1 < (handlers.length : Int) := by omega
    simp only [n1, n2, e1, hnext, terminal, if_true, if_false]
    rw [Context.loop]
    have n3 : ¬ (c.index + 1 + 1 < 0) := by omega
    have n4 : ¬ (c.index + 1 + 1 < (handlers.length : Int)) := by omega
    simp only [hidx, n3, n4, if_false]
    have : c.index + 1 + 1 = c.index + 2 := by ring
    rw [this]
  rw [step handlers (fuel + 2) h0 hget, inner]
  simp only [Option.some_bind]
  rw [Context.loop]
  have n5 : ¬ (c.index + 2 + 1 < 0) := by omega
  have n6 : ¬ (c.index + 2 + 1 < (handlers.length : Int)) := by omega
  simp only [n5, n6, if_false]
  have : c.index + 2 + 1 = c.index + 3 := by ring
  rw [this]

/-! ## The expiry endpoint: error answers -/

theorem getClientExpiryByUUID_resolved (resolver : String → Int × Bool × Option String)
    (now : Int) (c : Context) (uuid : String)
    (hid : uuid = if TrimSpace (c.Param "uuid") = "" then TrimSpace (c.Query "uuid")
                  else TrimSpace (c.Param "uuid"))
    (hne : uuid ≠ "") :
    getClientExpiryByUUID resolver now c
      = (let c1 := { c with resolverCalls := c.resolverCalls ++ [uuid] }
         if (resolver uuid).2.2.isSome then
           pureJsonMsg c1 StatusInternalServerError false "failed to query expiry time"
         else if !(resolver uuid).2.1 then
           pureJsonMsg c1 StatusNotFound false "uuid not found"
         else
           jsonObj c1
             (if (resolver uuid).1 > 0 then
                [("uuid", Any.str uuid), ("expiryTime", Any.int64 (resolver uuid).1),
                 ("expiryDate", Any.str (UnixMilli (resolver uuid).1).Format),
                 ("daysRemaining", Any.int64 (daysRemainingOf (sub64 (resolver uuid).1 now))),
                 ("expired", Any.bool (decide (sub64 (resolver uuid).1 now ≤ 0)))]
              else
                [("uuid", Any.str uuid), ("expiryTime", Any.int64 (resolver uuid).1),
                 ("expired", Any.bool false)])
             none) := by
  subst hid
  unfold getClientExpiryByUUID
  simp only [hne, if_false]
  rcases hr : resolver _ with ⟨expiryTime, found, err⟩
  simp only
  by_cases hpos : expiryTime > 0 <;> simp [hpos, H.set]

theorem answer_bad_request (resolver : String → Int × Bool × Option String)
    (now : Int) (c : Context)
    (hp : TrimSpace (c.Param "uuid") = "") (hq : TrimSpace (c.Query "uuid") = "")
    (hw : c.Writer.written = false) :
    getClientExpiryByUUID resolver now c
      = { c with Writer := { status := 400, written := true,
                             body := c.Writer.body
                               ++ [{ Success := false, Msg := "uuid is required", Obj := none }] } } := by
  unfold getClientExpiryByUUID
  simp only [hp, hq, if_true]
  exact JSON_unwritten c 400 _ hw (by decide) (by decide)

theorem answer_not_found (resolver : String → Int × Bool × Option String)
    (now : Int) (c : Context) (uuid : String) (expiryTime : Int)
    (hid : uuid = if TrimSpace (c.Param "uuid") = "" then TrimSpace (c.Query "uuid")
                  else TrimSpace (c.Param "uuid"))
    (hne : uuid ≠ "") (hres : resolver uuid = (expiryTime, false, none))
    (hw : c.Writer.written = false) :
    getClientExpiryByUUID resolver now c
      = { c with resolverCalls := c.resolverCalls ++ [uuid],
                 Writer := { status := 404, written := true,
                             body := c.Writer.body
                               ++ [{ Success := false, Msg := "uuid not found", Obj := none }] } } := by
  rw [getClientExpiryByUUID_resolved resolver now c uuid hid hne, hres]
  simp only [Option.isSome_none, Bool.false_eq_true, if_false, Bool.not_false, if_true]
  exact JSON_unwritten _ 404 _ hw (by decide) (by decide)

theorem answer_internal_error (resolver : String → Int × Bool × Option String)
    (now : Int) (c : Context) (uuid : String) (expiryTime : Int) (found : Bool) (e : String)
    (hid : uuid = if TrimSpace (c.Param "uuid") = "" then TrimSpace (c.Query "uuid")
                  else TrimSpace (c.Param "uuid"))
    (hne : uuid ≠ "") (hres : resolver uuid = (expiryTime, found, some e))
    (hw : c.Writer.written = false) :
    getClientExpiryByUUID resolver now c
      = { c with resolverCalls := c.resolverCalls ++ [uuid],
                 Writer := { status := 500, written := true,
                             body := c.Writer.body
                               ++ [{ Success := false, Msg := "failed to query expiry time",
                                     Obj := none }] } } := by
  rw [getClientExpiryByUUID_resolved resolver now c uuid hid hne, hres]
  simp only [Option.isSome_some, if_true]
  exact JSON_unwritten _ 500 _ hw (by decide) (by decide)

/-- C2: when the route parameter `uuid` and the query parameter `uuid` are both
empty after trimming, the endpoint answers HTTP 400 with the success flag false
and the message "uuid is required"; the answer does not depend on the resolver
and no call of the resolver is recorded. -/
theorem getClientExpiryByUUID_uuid_required (resolver : String → Int × Bool × Option String)
    (now : Int) (c : Context)
    (hp : TrimSpace (c.Param "uuid") = "") (hq : TrimSpace (c.Query "uuid") = "")
    (hw : c.Writer.written = false) :
    getClientExpiryByUUID resolver now c
        = { c with Writer := { status := 400, written := true,
                               body := c.Writer.body
                                 ++ [{ Success := false, Msg := "uuid is required", Obj := none }] } }
    ∧ (getClientExpiryByUUID resolver now c).resolverCalls = c.resolverCalls := by
  have h := answer_bad_request resolver now c hp hq hw
  exact ⟨h, by rw [h]⟩

/-- C6: for a non-empty resolved identifier for which the resolver answers no
error and found = false, the endpoint answers HTTP 404 with the success flag
false and the message "uuid not found", whatever expiry value comes alongside;
the payload carries no object. -/
theorem getClientExpiryByUUID_not_found (resolver : String → Int × Bool × Option String)
    (now : Int) (c : Context) (uuid : String) (expiryTime : Int)
    (hid : uuid = if TrimSpace (c.Param "uuid") = "" then TrimSpace (c.Query "uuid")
                  else TrimSpace (c.Param "uuid"))
    (hne : uuid ≠ "") (hres : resolver uuid = (expiryTime, false, none))
    (hw : c.Writer.written = false) :
    getClientExpiryByUUID resolver now c
        = { c with resolverCalls := c.resolverCalls ++ [uuid],
                   Writer := { status := 404, written := true,
                               body := c.Writer.body
                                 ++ [{ Success := false, Msg := "uuid not found", Obj := none }] } }
    ∧ (getClientExpiryByUUID resolver now c).emitted = none := by
  have h := answer_not_found resolver now c uuid expiryTime hid hne hres hw
  refine ⟨h, ?_⟩
  rw [h]
  simp [Context.emitted]

/-- C7: for a non-empty resolved identifier for which the resolver answers an
error, the endpoint answers HTTP 500 with the success flag false and the fixed
message "failed to query expiry time"; the payload carries no object, and the
answer is the same for every error value, found flag, expiry value and clock. -/
theorem getClientExpiryByUUID_resolver_error (resolver : String → Int × Bool × Option String)
    (now : Int) (c : Context) (uuid : String) (expiryTime : Int) (found : Bool) (e : String)
    (hid : uuid = if TrimSpace (c.Param "uuid") = "" then TrimSpace (c.Query "uuid")
                  else TrimSpace (c.Param "uuid"))
    (hne : uuid ≠ "") (hres : resolver uuid = (expiryTime, found, some e))
    (hw : c.Writer.written = false) :
    getClientExpiryByUUID resolver now c
        = { c with resolverCalls := c.resolverCalls ++ [uuid],
                   Writer := { status := 500, written := true,
                               body := c.Writer.body
                                 ++ [{ Success := false, Msg := "failed to query expiry time",
                                       Obj := none }] } }
    ∧ (getClientExpiryByUUID resolver now c).emitted = none
    ∧ (∀ (resolver2 : String → Int × Bool × Option String) (now2 expiryTime2 : Int)
         (found2 : Bool) (e2 : String), resolver2 uuid = (expiryTime2, found2, some e2) →
         getClientExpiryByUUID resolver2 now2 c = getClientExpiryByUUID resolver now c) := by
  have h := answer_internal_error resolver now c uuid expiryTime found e hid hne hres hw
  refine ⟨h, ?_, ?_⟩
  · rw [h]
    simp [Context.emitted]
  · intro resolver2 now2 expiryTime2 found2 e2 hres2
    rw [h, answer_internal_error resolver2 now2 c uuid expiryTime2 found2 e2 hid hne hres2 hw]

/-- C9: the identifier handed to the resolver is the route parameter `uuid`
trimmed when that is non-empty, and otherwise the query parameter `uuid`
trimmed; whenever it is non-empty the resolver is called exactly once, with
exactly that string, and when both are empty it is not called. -/
theorem getClientExpiryByUUID_resolution (resolver : String → Int × Bool × Option String)
    (now : Int) (c : Context) :
    (TrimSpace (c.Param "uuid") ≠ "" →
      (getClientExpiryByUUID resolver now c).resolverCalls
        = c.resolverCalls ++ [TrimSpace (c.Param "uuid")])
    ∧ (TrimSpace (c.Param "uuid") = "" → TrimSpace (c.Query "uuid") ≠ "" →
      (getClientExpiryByUUID resolver now c).resolverCalls
        = c.resolverCalls ++ [TrimSpace (c.Query "uuid")])
    ∧ (TrimSpace (c.Param "uuid") = "" → TrimSpace (c.Query "uuid") = "" →
      (getClientExpiryByUUID resolver now c).resolverCalls = c.resolverCalls) := by
  have calls : ∀ uuid : String,
      uuid = (if TrimSpace (c.Param "uuid") = "" then TrimSpace (c.Query "uuid")
              else TrimSpace (c.Param "uuid")) → uuid ≠ "" →
      (getClientExpiryByUUID resolver now c).resolverCalls = c.resolverCalls ++ [uuid] := by
    intro uuid hid hne
    rw [getClientExpiryByUUID_resolved resolver now c uuid hid hne]
    simp only [pureJsonMsg, jsonObj, Context.JSON, Context.Status]
    split_ifs <;> rfl
  refine ⟨?_, ?_, ?_⟩
  · intro hp
    exact calls _ (by simp [hp]) hp
  · intro hp hq
    exact calls _ (by simp [hp]) hq
  · intro hp hq
    unfold getClientExpiryByUUID
    simp only [hp, hq, if_true, pureJsonMsg, Context.JSON, Context.Status]
    split_ifs <;> rfl

/-! ## The expiry endpoint: the 200 answer -/

theorem getClientExpiryByUUID_found (resolver : String → Int × Bool × Option String)
    (now : Int) (c : Context) (uuid : String) (expiryTime : Int)
    (hid : uuid = if TrimSpace (c.Param "uuid") = "" then TrimSpace (c.Query "uuid")
                  else TrimSpace (c.Param "uuid"))
    (hne : uuid ≠ "") (hres : resolver uuid = (expiryTime, true, none))
    (hw : c.Writer.written = false) :
    getClientExpiryByUUID resolver now c
      = { c with
          resolverCalls := c.resolverCalls ++ [uuid],
          Writer :=
            { status := 200, written := true,
              body := c.Writer.body ++
                [{ Success := true, Msg := "",
                   Obj := some
                     (if expiryTime > 0 then
                        [("uuid", Any.str uuid), ("expiryTime", Any.int64 expiryTime),
                         ("expiryDate", Any.str (UnixMilli expiryTime).Format),
                         ("daysRemaining", Any.int64 (daysRemainingOf (sub64 expiryTime now))),
                         ("expired", Any.bool (decide (sub64 expiryTime now ≤ 0)))]
                      else
                        [("uuid", Any.str uuid), ("expiryTime", Any.int64 expiryTime),
                         ("expired", Any.bool false)]) }] } } := by
  rw [getClientExpiryByUUID_resolved resolver now c uuid hid hne, hres]
  simp only [Option.isSome_none, Bool.false_eq_true, if_false, Bool.not_true, jsonObj, StatusOK]
  exact JSON_unwritten _ 200 _ hw (by decide) (by decide)

theorem wrap64_of_isInt64 (x : Int) (h : isInt64 x) : wrap64 x = x := by
  unfold isInt64 at h
  unfold wrap64
  omega

/-- C5: for a found identifier whose expiry value is at most 0 (no expiry
configured), whatever the clock reads, the endpoint answers HTTP 200 with an
object whose keys are exactly uuid, expiryTime and expired, with expired =
false; expiryDate and daysRemaining are absent. -/
theorem getClientExpiryByUUID_no_expiry (resolver : String → Int × Bool × Option String)
    (now : Int) (c : Context) (uuid : String) (expiryTime : Int)
    (hid : uuid = if TrimSpace (c.Param "uuid") = "" then TrimSpace (c.Query "uuid")
                  else TrimSpace (c.Param "uuid"))
    (hne : uuid ≠ "") (hres : resolver uuid = (expiryTime, true, none))
    (hexp : expiryTime ≤ 0) (hw : c.Writer.written = false) :
    (getClientExpiryByUUID resolver now c).Writer.status = 200
    ∧ (getClientExpiryByUUID resolver now c).emitted
        = some [("uuid", Any.str uuid), ("expiryTime", Any.int64 expiryTime),
                ("expired", Any.bool false)]
    ∧ (getClientExpiryByUUID resolver now c).emitted.map H.keys
        = some ["uuid", "expiryTime", "expired"]
    ∧ (getClientExpiryByUUID resolver now c).field "expired" = some (Any.bool false)
    ∧ (getClientExpiryByUUID resolver now c).field "expiryDate" = none
    ∧ (getClientExpiryByUUID resolver now c).field "daysRemaining" = none := by
  have hnot : ¬ (expiryTime > 0) := by omega
  rw [getClientExpiryByUUID_found resolver now c uuid expiryTime hid hne hres hw]
  simp [Context.emitted, Context.field, hnot, H.keys, H.get]

/-- C4: for a found identifier with expiryTime > 0, the endpoint answers HTTP
200 and the field expired is true exactly when remainingMs, the int64
difference expiryTime - now computed by the code, is at most 0, and false
otherwise; whenever that difference does not overflow int64 (as for every
clock reading at or after the epoch) it is the mathematical difference. -/
theorem getClientExpiryByUUID_expired_flag (resolver : String → Int × Bool × Option String)
    (now : Int) (c : Context) (uuid : String) (expiryTime : Int)
    (hid : uuid = if TrimSpace (c.Param "uuid") = "" then TrimSpace (c.Query "uuid")
                  else TrimSpace (c.Param "uuid"))
    (hne : uuid ≠ "") (hres : resolver uuid = (expiryTime, true, none))
    (hpos : 0 < expiryTime) (hw : c.Writer.written = false) :
    (getClientExpiryByUUID resolver now c).Writer.status = 200
    ∧ ((getClientExpiryByUUID resolver now c).field "expired" = some (Any.bool true)
        ↔ sub64 expiryTime now ≤ 0)
    ∧ ((getClientExpiryByUUID resolver now c).field "expired" = some (Any.bool false)
        ↔ 0 < sub64 expiryTime now)
    ∧ (isInt64 (expiryTime - now) →
        ((getClientExpiryByUUID resolver now c).field "expired" = some (Any.bool true)
          ↔ expiryTime - now ≤ 0))
    ∧ (isInt64 expiryTime → isInt64 now → 0 ≤ now → isInt64 (expiryTime - now)) := by
  have hgt : expiryTime > 0 := hpos
  rw [getClientExpiryByUUID_found resolver now c uuid expiryTime hid hne hres hw]
  refine ⟨rfl, ?_, ?_, ?_, ?_⟩
  · simp [Context.emitted, Context.field, hgt, H.get]
  · simp [Context.emitted, Context.field, hgt, H.get]
  · intro hr
    simp [Context.emitted, Context.field, hgt, H.get, sub64, wrap64_of_isInt64 _ hr]
  · intro h1 h2 h3
    unfold isInt64 at *
    omega

/-- C8, amended: in every 200 answer of the endpoint the field expired is true
exactly when an expiry is configured (expiryTime > 0) and the int64 difference
expiryTime - now is at most 0; when no expiry is configured (expiryTime at most
0) expired is false whatever the clock reads. -/
theorem getClientExpiryByUUID_expired_invariant
    (resolver : String → Int × Bool × Option String)
    (now : Int) (c : Context) (uuid : String)
    (hid : uuid = if TrimSpace (c.Param "uuid") = "" then TrimSpace (c.Query "uuid")
                  else TrimSpace (c.Param "uuid"))
    (hw : c.Writer.written = false)
    (hstatus : (getClientExpiryByUUID resolver now c).Writer.status = 200) :
    (getClientExpiryByUUID resolver now c).field "expired"
      = some (Any.bool (decide (0 < (resolver uuid).1 ∧ sub64 (resolver uuid).1 now ≤ 0))) := by
  by_cases hne : uuid = ""
  · exfalso
    have hp : TrimSpace (c.Param "uuid") = "" := by
      by_contra hp
      rw [if_neg hp] at hid
      exact hp (hid ▸ hne)
    have hq : TrimSpace (c.Query "uuid") = "" := by
      rw [if_pos hp] at hid
      exact hid ▸ hne
    rw [answer_bad_request resolver now c hp hq hw] at hstatus
    simp at hstatus
  · rcases hres : resolver uuid with ⟨expiryTime, found, err⟩
    cases err with
    | some e =>
      rw [answer_internal_error resolver now c uuid expiryTime found e hid hne hres hw]
        at hstatus
      simp at hstatus
    | none =>
      cases found with
      | false =>
        rw [answer_not_found resolver now c uuid expiryTime hid hne hres hw] at hstatus
        simp at hstatus
      | true =>
        rw [getClientExpiryByUUID_found resolver now c uuid expiryTime hid hne hres hw]
        by_cases hgt : expiryTime > 0
        · have h0 : 0 < expiryTime := hgt
          simp [Context.emitted, Context.field, hgt, h0, H.get]
        · have h0 : ¬ (0 < expiryTime) := hgt
          simp [Context.emitted, Context.field, hgt, h0, H.get]

/-! ## Lemmas on binary64 rounding -/

theorem log2Aux_spec (fuel : Nat) : ∀ n : Nat, 0 < n → n ≤ fuel →
    2 ^ log2Aux fuel n ≤ n ∧ n < 2 ^ (log2Aux fuel n + 1) := by
  induction fuel with
  | zero => intro n h0 h1; omega
  | succ f ih =>
    intro n h0 h1
    unfold log2Aux
    by_cases h2 : 2 ≤ n
    · simp only [h2, if_true]
      have hh := ih (n / 2) (by omega) (by omega)
      constructor
      · calc 2 ^ (log2Aux f (n / 2) + 1) = 2 ^ log2Aux f (n / 2) * 2 := pow_succ _ _
          _ ≤ (n / 2) * 2 := Nat.mul_le_mul_right _ hh.1
          _ ≤ n := Nat.div_mul_le_self n 2
      · have h3 : n / 2 + 1 ≤ 2 ^ (log2Aux f (n / 2) + 1) := hh.2
        calc n < (n / 2 + 1) * 2 := by omega
          _ ≤ 2 ^ (log2Aux f (n / 2) + 1) * 2 := Nat.mul_le_mul_right _ h3
          _ = 2 ^ (log2Aux f (n / 2) + 1 + 1) := (pow_succ _ _).symm
    · simp only [h2, if_false]
      constructor <;> simp <;> omega

theorem log2_spec (n : Nat) (h : 0 < n) : 2 ^ log2 n ≤ n ∧ n < 2 ^ (log2 n + 1) :=
  log2Aux_spec n n h (le_refl n)

theorem ilog2_le (a d n : Nat) (ha : 0 < a) (hd : 0 < d) (h : a < d * 2 ^ (n + 1)) :
    ilog2 a d ≤ n := by
  have hA := log2_spec a ha
  have hD := log2_spec d hd
  have hlt : 2 ^ log2 a < 2 ^ (log2 d + 1 + (n + 1)) := by
    calc 2 ^ log2 a ≤ a := hA.1
      _ < d * 2 ^ (n + 1) := h
      _ ≤ 2 ^ (log2 d + 1) * 2 ^ (n + 1) := Nat.mul_le_mul_right _ (le_of_lt hD.2)
      _ = 2 ^ (log2 d + 1 + (n + 1)) := (pow_add _ _ _).symm
  have hk : log2 a < log2 d + 1 + (n + 1) := (Nat.pow_lt_pow_iff_right (by norm_num)).mp hlt
  unfold ilog2
  simp only
  by_cases hk2 : (log2 a : Int) - (log2 d : Int) ≤ n
  · split_ifs <;> omega
  · have hk3 : (log2 a : Int) - (log2 d : Int) = n + 1 := by omega
    have hnn : (0 : Int) ≤ (log2 a : Int) - (log2 d : Int) := by omega
    have htn : ((log2 a : Int) - (log2 d : Int)).toNat = n + 1 := by omega
    simp only [hnn, if_true, htn]
    have : ¬ (d * 2 ^ (n + 1) ≤ a) := by omega
    simp only [this, if_false]
    omega
theorem roundHalfEven_one (n : Nat) : roundHalfEven n 1 = n := by
  simp [roundHalfEven, Nat.mod_one]

theorem roundHalfEven_mul_right (n d c : Nat) (hc : 0 < c) :
    roundHalfEven (n * c) (d * c) = roundHalfEven n d := by
  unfold roundHalfEven
  simp only [Nat.mul_div_mul_right n d hc, Nat.mul_mod_mul_right]
  have e1 : (2 * (n % d * c) < d * c) ↔ (2 * (n % d) < d) := by
    rw [← Nat.mul_assoc]
    exact Nat.mul_lt_mul_right hc
  have e2 : (d * c < 2 * (n % d * c)) ↔ (d < 2 * (n % d)) := by
    rw [← Nat.mul_assoc]
    exact Nat.mul_lt_mul_right hc
  simp only [e1, e2]

theorem le_roundHalfEven (n d j : Nat) (hd : 0 < d) (h : d * (2 * j) < 2 * n + d) :
    j ≤ roundHalfEven n d := by
  have hn : d * (n / d) + n % d = n := Nat.div_add_mod n d
  have hr : n % d < d := Nat.mod_lt n hd
  have hq : j ≤ n / d + 1 := by
    by_contra hcon
    have : n / d + 2 ≤ j := by omega
    have h2 : d * (2 * (n / d + 2)) ≤ d * (2 * j) := Nat.mul_le_mul_left _ (by omega)
    have h3 : d * (2 * (n / d + 2)) = 2 * (d * (n / d)) + 4 * d := by ring
    omega
  unfold roundHalfEven
  simp only
  split_ifs with c1 c2 c3
  · by_contra hcon
    have hj : j = n / d + 1 := by omega
    rw [hj] at h
    have h3 : d * (2 * (n / d + 1)) = 2 * (d * (n / d)) + 2 * d := by ring
    omega
  · exact hq
  · by_contra hcon
    have hj : j = n / d + 1 := by omega
    rw [hj] at h
    have h3 : d * (2 * (n / d + 1)) = 2 * (d * (n / d)) + 2 * d := by ring
    omega
  · exact hq

theorem roundHalfEven_le (n d j : Nat) (hd : 0 < d) (h : 2 * n < d * (2 * j + 1)) :
    roundHalfEven n d ≤ j := by
  have hn : d * (n / d) + n % d = n := Nat.div_add_mod n d
  have hr : n % d < d := Nat.mod_lt n hd
  have hq : n / d ≤ j := by
    by_contra hcon
    have : j + 1 ≤ n / d := by omega
    have h2 : d * (j + 1) ≤ d * (n / d) := Nat.mul_le_mul_left _ this
    have h3 : d * (2 * j + 1) = 2 * (d * j) + d := by ring
    have h4 : d * (j + 1) = d * j + d := by ring
    omega
  unfold roundHalfEven
  simp only
  have key : d < 2 * (n % d) ∨ 2 * (n % d) = d → n / d + 1 ≤ j := by
    intro hc
    by_contra hcon
    have hj : j = n / d := by omega
    rw [hj] at h
    have h3 : d * (2 * (n / d) + 1) = 2 * (d * (n / d)) + d := by ring
    omega
  split_ifs with c1 c2 c3
  · exact hq
  · exact key (Or.inl c2)
  · exact hq
  · exact key (Or.inr (by omega))
theorem roundHalfEven_scaled_floor (a P : Nat) (hP : 86400000 < 2 * P) :
    roundHalfEven (a * P) 86400000 / P = a / 86400000 := by
  have hP0 : 0 < P := by omega
  obtain ⟨q, hq⟩ : ∃ q, q = a / 86400000 := ⟨_, rfl⟩
  obtain ⟨r, hr⟩ : ∃ r, r = a % 86400000 := ⟨_, rfl⟩
  have ha : a = 86400000 * q + r := by omega
  have hr1 : r < 86400000 := by omega
  rw [← hq]
  obtain ⟨X, hX⟩ : ∃ X, X = q * P := ⟨_, rfl⟩
  obtain ⟨Z, hZ⟩ : ∃ Z, Z = r * P := ⟨_, rfl⟩
  have haP : a * P = 86400000 * X + Z := by rw [ha, hX, hZ]; ring
  have hZ1 : Z + P ≤ 86400000 * P := by
    have : (r + 1) * P ≤ 86400000 * P := Nat.mul_le_mul_right P (by omega)
    have e : (r + 1) * P = Z + P := by rw [hZ]; ring
    omega
  have hlo : X ≤ roundHalfEven (a * P) 86400000 := by
    apply le_roundHalfEven _ _ _ (by norm_num)
    omega
  have hhi : roundHalfEven (a * P) 86400000 ≤ X + (P - 1) := by
    apply roundHalfEven_le _ _ _ (by norm_num)
    omega
  apply Nat.div_eq_of_lt_le
  · rw [← hX]; exact hlo
  · have : (q + 1) * P = X + P := by rw [hX]; ring
    show roundHalfEven (a * P) 86400000 < (q + 1) * P
    omega

theorem roundHalfEven_scaled_ceil (a P : Nat) (hP : 86400000 < 2 * P) (ha0 : 0 < a) :
    (roundHalfEven (a * P) 86400000 + P - 1) / P = (a + 86400000 - 1) / 86400000 := by
  have hP0 : 0 < P := by omega
  obtain ⟨c, hc⟩ : ∃ c, c = (a + 86400000 - 1) / 86400000 := ⟨_, rfl⟩
  obtain ⟨r, hr⟩ : ∃ r, r = (a + 86400000 - 1) % 86400000 := ⟨_, rfl⟩
  rw [← hc]
  obtain ⟨k, hk⟩ : ∃ k, c = k + 1 := ⟨c - 1, by omega⟩
  obtain ⟨t, ht⟩ : ∃ t, a = 86400000 * k + t + 1 := ⟨a - 86400000 * k - 1, by omega⟩
  have ht1 : t < 86400000 := by omega
  obtain ⟨X, hX⟩ : ∃ X, X = k * P := ⟨_, rfl⟩
  obtain ⟨Z, hZ⟩ : ∃ Z, Z = t * P := ⟨_, rfl⟩
  have haP : a * P = 86400000 * X + Z + P := by rw [ht, hX, hZ]; ring
  have hZ1 : Z + P ≤ 86400000 * P := by
    have : (t + 1) * P ≤ 86400000 * P := Nat.mul_le_mul_right P (by omega)
    have e : (t + 1) * P = Z + P := by rw [hZ]; ring
    omega
  have hlo : X + 1 ≤ roundHalfEven (a * P) 86400000 := by
    apply le_roundHalfEven _ _ _ (by norm_num)
    omega
  have hhi : roundHalfEven (a * P) 86400000 ≤ X + P := by
    apply roundHalfEven_le _ _ _ (by norm_num)
    omega
  rw [hk]
  apply Nat.div_eq_of_lt_le
  · have : (k + 1) * P = X + P := by rw [hX]; ring
    show (k + 1) * P ≤ roundHalfEven (a * P) 86400000 + P - 1
    omega
  · have : (k + 1 + 1) * P = X + P + P := by rw [hX]; ring
    show roundHalfEven (a * P) 86400000 + P - 1 < (k + 1 + 1) * P
    omega
theorem roundNearestEven_of_lt (neg : Bool) (a d n : Nat) (ha : 0 < a) (hd : 0 < d)
    (hn : n ≤ 52) (h : a < d * 2 ^ (n + 1)) :
    ∃ s : Nat, 52 - n ≤ s ∧
      roundNearestEven neg a d
        = { neg := neg, mant := roundHalfEven (a * 2 ^ s) d, exp := -(s : Int) } := by
  have hl := ilog2_le a d n ha hd h
  have ha0 : a ≠ 0 := by omega
  refine ⟨(-(max (ilog2 a d - 52) (-1074))).toNat, ?_, ?_⟩
  · omega
  · unfold roundNearestEven
    simp only [ha0, if_false]
    by_cases he : 0 ≤ max (ilog2 a d - 52) (-1074)
    · have he0 : max (ilog2 a d - 52) (-1074) = 0 := by omega
      simp [he0]
    · have hneg : (((-(max (ilog2 a d - 52) (-1074))).toNat : Nat) : Int)
          = -(max (ilog2 a d - 52) (-1074)) := by omega
      simp only [he, if_false, hneg, neg_neg]

theorem ofInt64_of_lt (r : Int) (h0 : r ≠ 0) (h : r.natAbs < 2 ^ 53) :
    ∃ s : Nat,
      Float64.ofInt64 r = { neg := decide (r < 0), mant := r.natAbs * 2 ^ s, exp := -(s : Int) } := by
  obtain ⟨s, -, hs⟩ := roundNearestEven_of_lt (decide (r < 0)) r.natAbs 1 52 (by omega)
    (by norm_num) (le_refl _) (by simpa using h)
  exact ⟨s, by rw [Float64.ofInt64, hs, roundHalfEven_one]⟩

theorem div_msPerDay_of_lt (neg : Bool) (a s : Nat) (ha : 0 < a) (h : a < 2 ^ 53) :
    ∃ t : Nat, 26 ≤ t ∧
      Float64.div { neg := neg, mant := a * 2 ^ s, exp := -(s : Int) } msPerDay
        = { neg := neg, mant := roundHalfEven (a * 2 ^ t) 86400000, exp := -(t : Int) } := by
  have hpow : 0 < 2 ^ s := Nat.pow_pos (by norm_num)
  have hdiv : Float64.div { neg := neg, mant := a * 2 ^ s, exp := -(s : Int) } msPerDay
      = roundNearestEven neg (a * 2 ^ s) (86400000 * 2 ^ s) := by
    unfold Float64.div msPerDay
    simp only [sub_zero, Bool.xor_false]
    by_cases hs : s = 0
    · subst hs
      simp
    · have hneg : ¬ (0 ≤ -(s : Int)) := by omega
      simp only [hneg, if_false, neg_neg, Int.toNat_ofNat]
  obtain ⟨t, ht, hr⟩ := roundNearestEven_of_lt neg (a * 2 ^ s) (86400000 * 2 ^ s) 26
    (Nat.mul_pos ha hpow) (Nat.mul_pos (by norm_num) hpow) (by norm_num)
    (by
      have h1 : a * 2 ^ s < 86400000 * 2 ^ (26 + 1) * 2 ^ s :=
        Nat.mul_lt_mul_of_pos_right (lt_trans h (by norm_num)) hpow
      calc a * 2 ^ s < 86400000 * 2 ^ (26 + 1) * 2 ^ s := h1
        _ = 86400000 * 2 ^ s * 2 ^ (26 + 1) := by ring)
  refine ⟨t, by omega, ?_⟩
  rw [hdiv, hr]
  have e : a * 2 ^ s * 2 ^ t = a * 2 ^ t * 2 ^ s := by ring
  rw [e, roundHalfEven_mul_right _ _ _ hpow]

theorem daysRemainingOf_of_lt (r : Int) (h : r.natAbs < 2 ^ 53) :
    daysRemainingOf r
      = if r < 0 then -((r.natAbs / 86400000 : Nat) : Int)
        else (((r.natAbs + 86400000 - 1) / 86400000 : Nat) : Int) := by
  by_cases h0 : r = 0
  · subst h0
    decide
  · obtain ⟨s, hs⟩ := ofInt64_of_lt r h0 h
    obtain ⟨t, ht, hd⟩ := div_msPerDay_of_lt (decide (r < 0)) r.natAbs s (by omega) h
    have hP : 86400000 < 2 * 2 ^ t := by
      have : 2 ^ 26 ≤ 2 ^ t := Nat.pow_le_pow_right (by norm_num) ht
      omega
    have hexp : ¬ (0 ≤ -(t : Int)) := by omega
    unfold daysRemainingOf
    rw [hs, hd]
    by_cases hneg : r < 0
    · have hq := roundHalfEven_scaled_floor r.natAbs (2 ^ t) hP
      have hb : (r.natAbs / 86400000 : Nat) < 2 ^ 53 := lt_of_le_of_lt (Nat.div_le_self _ _) h
      simp only [Ceil, Float64.toInt64, hexp, hneg, if_true, if_false, decide_True, neg_neg,
        Int.toNat_ofNat, hq, le_refl, Int.toNat_zero, pow_zero, mul_one]
      have hin : isInt64 (-((r.natAbs / 86400000 : Nat) : Int)) := by
        unfold isInt64; omega
      simp only [hin, if_true]
    · have hq := roundHalfEven_scaled_ceil r.natAbs (2 ^ t) hP (by omega)
      have hb : ((r.natAbs + 86400000 - 1) / 86400000 : Nat) < 2 ^ 53 := by
        apply (Nat.div_lt_iff_lt_mul (by norm_num)).mpr
        omega
      simp only [Ceil, Float64.toInt64, hexp, hneg, if_false, decide_False, neg_neg,
        Int.toNat_ofNat, hq, le_refl, Int.toNat_zero, pow_zero, mul_one, if_true,
        Bool.false_eq_true]
      have hin : isInt64 (((r.natAbs + 86400000 - 1) / 86400000 : Nat) : Int) := by
        unfold isInt64; omega
      simp only [hin, if_true]
theorem daysRemainingOf_eq_ceil (r : Int) (h : |r| < 2 ^ 53) :
    daysRemainingOf r = ⌈(r : ℚ) / 86400000⌉ := by
  have habs : r.natAbs < 2 ^ 53 := by
    have : (r.natAbs : Int) = |r| := Int.natCast_natAbs r
    omega
  rw [daysRemainingOf_of_lt r habs]
  symm
  rw [Int.ceil_eq_iff, lt_div_iff₀ (by norm_num), div_le_iff₀ (by norm_num)]
  by_cases hneg : r < 0
  · simp only [hneg, if_true]
    have h1 : (-((r.natAbs / 86400000 : Nat) : Int) - 1) * 86400000 < r := by omega
    have h2 : r ≤ -((r.natAbs / 86400000 : Nat) : Int) * 86400000 := by omega
    constructor
    · exact_mod_cast h1
    · exact_mod_cast h2
  · simp only [hneg, if_false]
    have h1 : ((((r.natAbs + 86400000 - 1) / 86400000 : Nat) : Int) - 1) * 86400000 < r := by
      omega
    have h2 : r ≤ (((r.natAbs + 86400000 - 1) / 86400000 : Nat) : Int) * 86400000 := by omega
    constructor
    · exact_mod_cast h1
    · exact_mod_cast h2
/-! ## Days remaining -/

/-- C3, amended: for a found identifier with expiryTime > 0 and a clock reading
now with |expiryTime - now| < 2^53, the endpoint answers HTTP 200 and the field
daysRemaining is the mathematical ceiling of (expiryTime - now) / 86400000. -/
theorem getClientExpiryByUUID_daysRemaining (resolver : String → Int × Bool × Option String)
    (now : Int) (c : Context) (uuid : String) (expiryTime : Int)
    (hid : uuid = if TrimSpace (c.Param "uuid") = "" then TrimSpace (c.Query "uuid")
                  else TrimSpace (c.Param "uuid"))
    (hne : uuid ≠ "") (hres : resolver uuid = (expiryTime, true, none))
    (hpos : 0 < expiryTime) (hw : c.Writer.written = false)
    (hrange : |expiryTime - now| < 2 ^ 53) :
    (getClientExpiryByUUID resolver now c).Writer.status = 200
    ∧ (getClientExpiryByUUID resolver now c).field "daysRemaining"
        = some (Any.int64 ⌈((expiryTime - now : Int) : ℚ) / 86400000⌉) := by
  have hgt : expiryTime > 0 := hpos
  have hin : isInt64 (expiryTime - now) := by
    have := abs_lt.mp hrange
    unfold isInt64
    omega
  rw [getClientExpiryByUUID_found resolver now c uuid expiryTime hid hne hres hw]
  refine ⟨rfl, ?_⟩
  simp [Context.field, Context.emitted, hgt, H.get, sub64, wrap64_of_isInt64 _ hin,
    daysRemainingOf_eq_ceil _ hrange]

/-- C3, counterexample: with expiryTime = 9008899308800001 and the clock at
1700000000000 the difference 9007199308800001 is not a binary64 value; the
endpoint reports daysRemaining = 104249992 while the ceiling of the quotient
by 86400000 is 104249993. -/
theorem daysRemaining_not_ceiling :
    (0 : Int) < 9008899308800001 ∧ isInt64 9008899308800001 ∧ isInt64 1700000000000
    ∧ (getClientExpiryByUUID (fun _ => (9008899308800001, true, none)) 1700000000000
        (newContext [("uuid", "abc")] [] [])).Writer.status = 200
    ∧ (getClientExpiryByUUID (fun _ => (9008899308800001, true, none)) 1700000000000
        (newContext [("uuid", "abc")] [] [])).field "daysRemaining"
        = some (Any.int64 104249992)
    ∧ ⌈(((9008899308800001 : Int) - 1700000000000 : Int) : ℚ) / 86400000⌉ = 104249993 := by
  refine ⟨by decide, by decide, by decide, ?_, ?_, ?_⟩
  · rw [getClientExpiryByUUID_found _ 1700000000000 _ "abc" 9008899308800001 (by decide)
      (by decide) rfl rfl]
  · rw [getClientExpiryByUUID_found _ 1700000000000 _ "abc" 9008899308800001 (by decide)
      (by decide) rfl rfl]
    have hd : daysRemainingOf (sub64 9008899308800001 1700000000000) = 104249992 := by decide
    simp [Context.field, Context.emitted, H.get, hd]
  · rw [Int.ceil_eq_iff]
    norm_num
/-- C8, counterexample: with no expiry configured (expiryTime = 0) and the clock
at 1700000000000 the endpoint answers 200 with expired = false, although
expiryTime - now is at most 0. -/
theorem expired_invariant_fails_without_expiry :
    (getClientExpiryByUUID (fun _ => (0, true, none)) 1700000000000
        (newContext [("uuid", "abc")] [] [])).Writer.status = 200
    ∧ (getClientExpiryByUUID (fun _ => (0, true, none)) 1700000000000
        (newContext [("uuid", "abc")] [] [])).field "expired" = some (Any.bool false)
    ∧ (0 : Int) - 1700000000000 ≤ 0 := by
  refine ⟨?_, ?_, by decide⟩
  · rw [getClientExpiryByUUID_found _ 1700000000000 _ "abc" 0 (by decide) (by decide) rfl rfl]
  · rw [getClientExpiryByUUID_found _ 1700000000000 _ "abc" 0 (by decide) (by decide) rfl rfl]
    simp [Context.field, Context.emitted, H.get]

/-! ## Instances at concrete requests -/

theorem checkAPIAuth_unauthenticated_witness :
    Context.Next
        [checkAPIAuth (fun _ => false),
         terminal (getClientExpiryByUUID (fun _ => (0, true, none)) 0)] 2
        (newContext [("uuid", "abc")] [] [])
      = some { newContext [("uuid", "abc")] [] [] with
               index := 64,
               Writer := { status := 404, written := true, body := [] } } :=
  (checkAPIAuth_unauthenticated (fun _ => false)
      { newContext [("uuid", "abc")] [] [] with index := 0 } rfl rfl).2 _ 0
      (by decide) rfl (by decide)

theorem checkAPIAuth_authenticated_witness :
    Context.loop
        [checkAPIAuth (fun _ => true),
         terminal (getClientExpiryByUUID (fun _ => (0, true, none)) 0)] 3
        { newContext [("uuid", "abc")] [] [] with index := 0 }
      = some { getClientExpiryByUUID (fun _ => (0, true, none)) 0
                 { newContext [("uuid", "abc")] [] [] with index := 1 } with index := 3 } :=
  (checkAPIAuth_authenticated (fun _ => true)
      { newContext [("uuid", "abc")] [] [] with index := 0 } rfl).2.2 _ _ 0
    (by decide) rfl rfl rfl (by decide)

theorem getClientExpiryByUUID_uuid_required_witness :
    getClientExpiryByUUID (fun _ => (5, true, none)) 7 (newContext [("uuid", " ")] [("uuid", "\t")] [])
        = { newContext [("uuid", " ")] [("uuid", "\t")] [] with
            Writer := { status := 400, written := true,
                        body := [] ++ [{ Success := false, Msg := "uuid is required", Obj := none }] } }
    ∧ (getClientExpiryByUUID (fun _ => (5, true, none)) 7
        (newContext [("uuid", " ")] [("uuid", "\t")] [])).resolverCalls = [] :=
  getClientExpiryByUUID_uuid_required (fun _ => (5, true, none)) 7
    (newContext [("uuid", " ")] [("uuid", "\t")] []) (by decide) (by decide) rfl

theorem getClientExpiryByUUID_not_found_witness :
    getClientExpiryByUUID (fun _ => (5, false, none)) 7 (newContext [("uuid", " abc ")] [] [])
        = { newContext [("uuid", " abc ")] [] [] with
            resolverCalls := [] ++ ["abc"],
            Writer := { status := 404, written := true,
                        body := [] ++ [{ Success := false, Msg := "uuid not found", Obj := none }] } }
    ∧ (getClientExpiryByUUID (fun _ => (5, false, none)) 7
        (newContext [("uuid", " abc ")] [] [])).emitted = none :=
  getClientExpiryByUUID_not_found (fun _ => (5, false, none)) 7
    (newContext [("uuid", " abc ")] [] []) "abc" 5 (by decide) (by decide) rfl rfl

theorem getClientExpiryByUUID_resolver_error_witness :
    (getClientExpiryByUUID (fun _ => (5, true, some "database is locked")) 7
        (newContext [] [("uuid", "abc")] [])).Writer
      = { status := 500, written := true,
          body := [{ Success := false, Msg := "failed to query expiry time", Obj := none }] } :=
  congrArg Context.Writer
    (getClientExpiryByUUID_resolver_error (fun _ => (5, true, some "database is locked")) 7
      (newContext [] [("uuid", "abc")] []) "abc" 5 true "database is locked"
      (by decide) (by decide) rfl rfl).1

theorem getClientExpiryByUUID_no_expiry_witness :
    (getClientExpiryByUUID (fun _ => (0, true, none)) 1700000000000
        (newContext [("uuid", "abc")] [] [])).emitted
      = some [("uuid", Any.str "abc"), ("expiryTime", Any.int64 0), ("expired", Any.bool false)] :=
  (getClientExpiryByUUID_no_expiry (fun _ => (0, true, none)) 1700000000000
    (newContext [("uuid", "abc")] [] []) "abc" 0 (by decide) (by decide) rfl
    (by decide) rfl).2.1

theorem getClientExpiryByUUID_expired_flag_witness :
    ((getClientExpiryByUUID (fun _ => (1735689600000, true, none)) 1735776000000
        (newContext [("uuid", "abc")] [] [])).field "expired" = some (Any.bool true)
      ↔ sub64 1735689600000 1735776000000 ≤ 0) :=
  (getClientExpiryByUUID_expired_flag (fun _ => (1735689600000, true, none)) 1735776000000
    (newContext [("uuid", "abc")] [] []) "abc" 1735689600000 (by decide) (by decide) rfl
    (by decide) rfl).2.1

theorem getClientExpiryByUUID_expired_invariant_witness :
    (getClientExpiryByUUID (fun _ => (1735689600000, true, none)) 1735776000000
        (newContext [("uuid", "abc")] [] [])).field "expired"
      = some (Any.bool (decide ((0 : Int) < 1735689600000
          ∧ sub64 1735689600000 1735776000000 ≤ 0))) :=
  getClientExpiryByUUID_expired_invariant (fun _ => (1735689600000, true, none)) 1735776000000
    (newContext [("uuid", "abc")] [] []) "abc" (by decide) rfl
    (by rw [getClientExpiryByUUID_found _ 1735776000000 _ "abc" 1735689600000 (by decide)
      (by decide) rfl rfl])

theorem getClientExpiryByUUID_daysRemaining_witness :
    (getClientExpiryByUUID (fun _ => (1735689600000, true, none)) 1735603200000
        (newContext [("uuid", "abc")] [] [])).field "daysRemaining"
      = some (Any.int64 ⌈(((1735689600000 : Int) - 1735603200000 : Int) : ℚ) / 86400000⌉) :=
  (getClientExpiryByUUID_daysRemaining (fun _ => (1735689600000, true, none)) 1735603200000
    (newContext [("uuid", "abc")] [] []) "abc" 1735689600000 (by decide) (by decide) rfl
    (by decide) rfl (by norm_num)).2

/-! ## Expiry at the clock reading and one day before it -/

/-- C13: for a found identifier with expiryTime > 0 equal to the clock reading
now, the endpoint answers HTTP 200 with expired = true and daysRemaining = 0. -/
theorem getClientExpiryByUUID_expiry_now (resolver : String → Int × Bool × Option String)
    (now : Int) (c : Context) (uuid : String) (expiryTime : Int)
    (hid : uuid = if TrimSpace (c.Param "uuid") = "" then TrimSpace (c.Query "uuid")
                  else TrimSpace (c.Param "uuid"))
    (hne : uuid ≠ "") (hres : resolver uuid = (expiryTime, true, none))
    (hpos : 0 < expiryTime) (hw : c.Writer.written = false) (hnow : expiryTime = now) :
    (getClientExpiryByUUID resolver now c).Writer.status = 200
    ∧ (getClientExpiryByUUID resolver now c).field "expired" = some (Any.bool true)
    ∧ (getClientExpiryByUUID resolver now c).field "daysRemaining" = some (Any.int64 0) := by
  have hgt : expiryTime > 0 := hpos
  have hsub : sub64 expiryTime now = 0 := by
    subst hnow
    simp [sub64, wrap64]
  have hd : daysRemainingOf 0 = 0 := by decide
  rw [getClientExpiryByUUID_found resolver now c uuid expiryTime hid hne hres hw]
  simp [Context.field, Context.emitted, hgt, H.get, hsub, hd]

/-- C14: for a found identifier with expiryTime > 0 and a clock reading now with
now - expiryTime = 86400000, the endpoint answers HTTP 200 with expired = true
and daysRemaining = -1. -/
theorem getClientExpiryByUUID_expiry_yesterday
    (resolver : String → Int × Bool × Option String)
    (now : Int) (c : Context) (uuid : String) (expiryTime : Int)
    (hid : uuid = if TrimSpace (c.Param "uuid") = "" then TrimSpace (c.Query "uuid")
                  else TrimSpace (c.Param "uuid"))
    (hne : uuid ≠ "") (hres : resolver uuid = (expiryTime, true, none))
    (hpos : 0 < expiryTime) (hw : c.Writer.written = false)
    (hnow : now - expiryTime = 86400000) :
    (getClientExpiryByUUID resolver now c).Writer.status = 200
    ∧ (getClientExpiryByUUID resolver now c).field "expired" = some (Any.bool true)
    ∧ (getClientExpiryByUUID resolver now c).field "daysRemaining" = some (Any.int64 (-1)) := by
  have hgt : expiryTime > 0 := hpos
  have hsub : sub64 expiryTime now = -86400000 := by
    have : expiryTime - now = -86400000 := by omega
    rw [sub64, this]
    decide
  have hd : daysRemainingOf (-86400000) = -1 := by decide
  rw [getClientExpiryByUUID_found resolver now c uuid expiryTime hid hne hres hw]
  simp [Context.field, Context.emitted, hgt, H.get, hsub, hd]

/-- C15: every 200 answer of the endpoint carries the field uuid equal to the
resolved (trimmed) identifier, which is the one string handed to the resolver,
and the field expiryTime equal to the value the resolver answered, unchanged,
whether an expiry is configured or not. -/
theorem getClientExpiryByUUID_echo (resolver : String → Int × Bool × Option String)
    (now : Int) (c : Context) (uuid : String)
    (hid : uuid = if TrimSpace (c.Param "uuid") = "" then TrimSpace (c.Query "uuid")
                  else TrimSpace (c.Param "uuid"))
    (hw : c.Writer.written = false)
    (hstatus : (getClientExpiryByUUID resolver now c).Writer.status = 200) :
    (getClientExpiryByUUID resolver now c).field "uuid" = some (Any.str uuid)
    ∧ (getClientExpiryByUUID resolver now c).field "expiryTime"
        = some (Any.int64 (resolver uuid).1)
    ∧ (getClientExpiryByUUID resolver now c).resolverCalls = c.resolverCalls ++ [uuid] := by
  by_cases hne : uuid = ""
  · exfalso
    have hp : TrimSpace (c.Param "uuid") = "" := by
      by_contra hp
      rw [if_neg hp] at hid
      exact hp (hid ▸ hne)
    have hq : TrimSpace (c.Query "uuid") = "" := by
      rw [if_pos hp] at hid
      exact hid ▸ hne
    rw [answer_bad_request resolver now c hp hq hw] at hstatus
    simp at hstatus
  · rcases hres : resolver uuid with ⟨expiryTime, found, err⟩
    cases err with
    | some e =>
      rw [answer_internal_error resolver now c uuid expiryTime found e hid hne hres hw]
        at hstatus
      simp at hstatus
    | none =>
      cases found with
      | false =>
        rw [answer_not_found resolver now c uuid expiryTime hid hne hres hw] at hstatus
        simp at hstatus
      | true =>
        rw [getClientExpiryByUUID_found resolver now c uuid expiryTime hid hne hres hw]
        by_cases hgt : expiryTime > 0
        · simp [Context.emitted, Context.field, hgt, H.get]
        · simp [Context.emitted, Context.field, hgt, H.get]

/-- C18: for every expiryTime (in particular every positive one) and every
clock reading now with |expiryTime - now| < 2^53, the expression int64(math.Ceil(float64(expiryTime - now) / 86400000.0))
of the code, evaluated in binary64 with rounding to nearest, equals the exact
integer ceiling division of expiryTime - now by 86400000. -/
theorem daysRemainingOf_exact (expiryTime now : Int)
    (hrange : |expiryTime - now| < 2 ^ 53) :
    daysRemainingOf (sub64 expiryTime now) = -((-(expiryTime - now)) / 86400000)
    ∧ daysRemainingOf (sub64 expiryTime now) = ⌈((expiryTime - now : Int) : ℚ) / 86400000⌉ := by
  have hin : isInt64 (expiryTime - now) := by
    have := abs_lt.mp hrange
    unfold isInt64
    omega
  have hq := daysRemainingOf_eq_ceil (expiryTime - now) hrange
  have habs : (expiryTime - now).natAbs < 2 ^ 53 := by
    have := abs_lt.mp hrange
    omega
  have hn := daysRemainingOf_of_lt (expiryTime - now) habs
  rw [sub64, wrap64_of_isInt64 _ hin]
  refine ⟨?_, hq⟩
  rw [hn]
  split_ifs with hneg <;> omega
/-! ## Sign and range of the binary64 day count -/

theorem ilog2_spec (a d : Nat) (ha : 0 < a) (hd : 0 < d) :
    (0 ≤ ilog2 a d → d * 2 ^ (ilog2 a d).toNat ≤ a ∧ a < d * 2 ^ ((ilog2 a d).toNat + 1))
    ∧ (ilog2 a d < 0 →
        d ≤ a * 2 ^ (-(ilog2 a d)).toNat ∧ a * 2 ^ (-(ilog2 a d)).toNat < 2 * d) := by
  have hA := log2_spec a ha
  have hD := log2_spec d hd
  unfold ilog2
  simp only
  by_cases hk : (0 : Int) ≤ (log2 a : Int) - (log2 d : Int)
  · -- log2 d ≤ log2 a
    obtain ⟨k, hk1⟩ : ∃ k : Nat, log2 a = log2 d + k := ⟨log2 a - log2 d, by omega⟩
    have hkk : (log2 a : Int) - (log2 d : Int) = (k : Int) := by omega
    rw [hkk]
    rw [if_pos (Int.natCast_nonneg k)]
    simp only [Int.toNat_ofNat]
    have hup : a < d * 2 ^ (k + 1) := by
      calc a < 2 ^ (log2 a + 1) := hA.2
        _ = 2 ^ log2 d * 2 ^ (k + 1) := by rw [← pow_add]; congr 1; omega
        _ ≤ d * 2 ^ (k + 1) := Nat.mul_le_mul_right _ hD.1
    by_cases ht : d * 2 ^ k ≤ a
    · rw [if_pos ht]
      simp only [Int.toNat_ofNat]
      exact ⟨fun _ => ⟨ht, hup⟩, fun h => by omega⟩
    · rw [if_neg ht]
      have hlt : a < d * 2 ^ k := by omega
      cases k with
      | zero =>
        have hk0 : log2 a = log2 d := by omega
        have h1 : d < 2 * a := by
          have h2 : 2 ^ (log2 d + 1) = 2 * 2 ^ log2 d := by rw [pow_succ]; ring
          have h3 := hA.1
          rw [hk0] at h3
          have h4 := hD.2
          omega
        refine ⟨fun h => by omega, fun _ => ?_⟩
        simp at hlt ⊢
        omega
      | succ j =>
        have e : ((j + 1 : Nat) : Int) - 1 = (j : Int) := by omega
        rw [e]
        simp only [Int.toNat_ofNat]
        refine ⟨fun _ => ⟨?_, hlt⟩, fun h => by omega⟩
        have h2 : d * 2 ^ j ≤ 2 ^ (log2 d + 1) * 2 ^ j := Nat.mul_le_mul_right _ (le_of_lt hD.2)
        have h3 : 2 ^ (log2 d + 1) * 2 ^ j = 2 ^ log2 a := by
          rw [← pow_add]; congr 1; omega
        have h4 := hA.1
        omega
  · -- log2 a < log2 d
    obtain ⟨j, hj1⟩ : ∃ j : Nat, log2 d = log2 a + j + 1 := ⟨log2 d - log2 a - 1, by omega⟩
    have hkk : (log2 a : Int) - (log2 d : Int) = -((j + 1 : Nat) : Int) := by omega
    have hneg : ¬ ((0 : Int) ≤ -((j + 1 : Nat) : Int)) := by omega
    rw [hkk, if_neg hneg]
    simp only [neg_neg, Int.toNat_ofNat]
    have hlo : d ≤ a * 2 ^ (j + 1 + 1) := by
      calc d ≤ 2 ^ (log2 d + 1) := le_of_lt hD.2
        _ = 2 ^ log2 a * 2 ^ (j + 1 + 1) := by rw [← pow_add]; congr 1; omega
        _ ≤ a * 2 ^ (j + 1 + 1) := Nat.mul_le_mul_right _ hA.1
    have hup : a * 2 ^ (j + 1) < 2 * d := by
      have h1 : a * 2 ^ (j + 1) < 2 ^ (log2 a + 1) * 2 ^ (j + 1) :=
        Nat.mul_lt_mul_of_pos_right hA.2 (Nat.pow_pos (by norm_num))
      have h2 : 2 ^ (log2 a + 1) * 2 ^ (j + 1) = 2 ^ (log2 d + 1) := by
        rw [← pow_add]; congr 1; omega
      have h3 : 2 ^ (log2 d + 1) = 2 * 2 ^ log2 d := by rw [pow_succ]; ring
      have h4 := hD.1
      omega
    by_cases ht : d ≤ a * 2 ^ (j + 1)
    · rw [if_pos ht]
      refine ⟨fun h => by omega, fun _ => ?_⟩
      simp only [neg_neg, Int.toNat_ofNat]
      exact ⟨ht, hup⟩
    · rw [if_neg ht]
      have e : -((j + 1 : Nat) : Int) - 1 = -((j + 1 + 1 : Nat) : Int) := by push_cast; ring
      rw [e]
      refine ⟨fun h => by omega, fun _ => ?_⟩
      simp only [neg_neg, Int.toNat_ofNat]
      refine ⟨hlo, ?_⟩
      have : a * 2 ^ (j + 1 + 1) = 2 * (a * 2 ^ (j + 1)) := by rw [pow_succ]; ring
      omega
theorem roundHalfEven_normal (n d : Nat) (hd : 0 < d) (h1 : d * 2 ^ 52 ≤ n)
    (h2 : n < d * 2 ^ 53) :
    2 ^ 52 ≤ roundHalfEven n d ∧ roundHalfEven n d ≤ 2 ^ 53 := by
  norm_num at h1 h2 ⊢
  constructor
  · apply le_roundHalfEven _ _ _ hd
    omega
  · apply roundHalfEven_le _ _ _ hd
    omega

theorem roundNearestEven_normal (neg : Bool) (a d : Nat) (ha : 0 < a) (hd : 0 < d)
    (hmin : -1022 ≤ ilog2 a d) :
    (roundNearestEven neg a d).neg = neg
    ∧ (roundNearestEven neg a d).exp = ilog2 a d - 52
    ∧ 2 ^ 52 ≤ (roundNearestEven neg a d).mant
    ∧ (roundNearestEven neg a d).mant ≤ 2 ^ 53 := by
  have ha0 : a ≠ 0 := by omega
  have hspec := ilog2_spec a d ha hd
  have hmax : max (ilog2 a d - 52) (-1074) = ilog2 a d - 52 := by omega
  unfold roundNearestEven
  simp only [ha0, if_false, hmax, true_and]
  by_cases he : 0 ≤ ilog2 a d - 52
  · simp only [he, if_true]
    obtain ⟨t, ht⟩ : ∃ t : Nat, ilog2 a d = (t : Int) + 52 := ⟨(ilog2 a d - 52).toNat, by omega⟩
    have hL := hspec.1 (by omega)
    have e1 : (ilog2 a d - 52).toNat = t := by omega
    have e2 : (ilog2 a d).toNat = t + 52 := by omega
    rw [e1]
    rw [e2] at hL
    have p1 : d * 2 ^ (t + 52) = d * 2 ^ t * 2 ^ 52 := by rw [pow_add]; ring
    have p2 : d * 2 ^ (t + 52 + 1) = d * 2 ^ t * 2 ^ 53 := by
      rw [show t + 52 + 1 = t + 53 by omega, pow_add]; ring
    rw [p1, p2] at hL
    exact roundHalfEven_normal a (d * 2 ^ t) (Nat.mul_pos hd (Nat.pow_pos (by norm_num)))
      hL.1 hL.2
  · simp only [he, if_false]
    apply roundHalfEven_normal _ _ hd
    · by_cases hL0 : 0 ≤ ilog2 a d
      · obtain ⟨t, ht⟩ : ∃ t : Nat, ilog2 a d = (t : Int) := ⟨(ilog2 a d).toNat, by omega⟩
        have hL := (hspec.1 hL0).1
        have e1 : (-(ilog2 a d - 52)).toNat = 52 - t := by omega
        have e2 : (ilog2 a d).toNat = t := by omega
        rw [e1]
        rw [e2] at hL
        have p : d * 2 ^ 52 = d * 2 ^ t * 2 ^ (52 - t) := by
          rw [Nat.mul_assoc, ← pow_add]; congr 2; omega
        rw [p]
        exact Nat.mul_le_mul_right _ hL
      · obtain ⟨t, ht⟩ : ∃ t : Nat, ilog2 a d = -(t : Int) := ⟨(-(ilog2 a d)).toNat, by omega⟩
        have hL := (hspec.2 (by omega)).1
        have e1 : (-(ilog2 a d - 52)).toNat = t + 52 := by omega
        have e2 : (-(ilog2 a d)).toNat = t := by omega
        rw [e1]
        rw [e2] at hL
        have p : a * 2 ^ (t + 52) = a * 2 ^ t * 2 ^ 52 := by rw [pow_add]; ring
        rw [p]
        exact Nat.mul_le_mul_right _ hL
    · by_cases hL0 : 0 ≤ ilog2 a d
      · obtain ⟨t, ht⟩ : ∃ t : Nat, ilog2 a d = (t : Int) := ⟨(ilog2 a d).toNat, by omega⟩
        have hL := (hspec.1 hL0).2
        have e1 : (-(ilog2 a d - 52)).toNat = 52 - t := by omega
        have e2 : (ilog2 a d).toNat = t := by omega
        rw [e1]
        rw [e2] at hL
        have p : d * 2 ^ 53 = d * 2 ^ (t + 1) * 2 ^ (52 - t) := by
          rw [Nat.mul_assoc, ← pow_add]; congr 2; omega
        rw [p]
        exact Nat.mul_lt_mul_of_pos_right hL (Nat.pow_pos (by norm_num))
      · obtain ⟨t, ht⟩ : ∃ t : Nat, ilog2 a d = -(t : Int) := ⟨(-(ilog2 a d)).toNat, by omega⟩
        have hL := (hspec.2 (by omega)).2
        have e1 : (-(ilog2 a d - 52)).toNat = t + 52 := by omega
        have e2 : (-(ilog2 a d)).toNat = t := by omega
        rw [e1]
        rw [e2] at hL
        have p : a * 2 ^ (t + 52) = a * 2 ^ t * 2 ^ 52 := by rw [pow_add]; ring
        have p2 : d * 2 ^ 53 = 2 * d * 2 ^ 52 := by
          rw [show (53 : Nat) = 52 + 1 by rfl, pow_succ]; ring
        rw [p, p2]
        exact Nat.mul_lt_mul_of_pos_right hL (Nat.pow_pos (by norm_num))
theorem le_ilog2 (a d n : Nat) (ha : 0 < a) (hd : 0 < d) (h : d ≤ a * 2 ^ n) :
    -(n : Int) ≤ ilog2 a d := by
  by_contra hcon
  have hneg : ilog2 a d < 0 := by omega
  obtain ⟨t, ht⟩ : ∃ t : Nat, ilog2 a d = -((n + 1 + t : Nat) : Int) :=
    ⟨(-(ilog2 a d)).toNat - (n + 1), by omega⟩
  have hL := ((ilog2_spec a d ha hd).2 hneg).2
  have e : (-(ilog2 a d)).toNat = n + 1 + t := by omega
  rw [e] at hL
  have h1 : a * 2 ^ (n + 1 + t) = 2 * (a * 2 ^ n) * 2 ^ t := by
    rw [pow_add, pow_succ]; ring
  have h2 : 2 * (a * 2 ^ n) ≤ 2 * (a * 2 ^ n) * 2 ^ t :=
    Nat.le_mul_of_pos_right _ (Nat.pow_pos (by norm_num))
  omega

theorem div_ofInt64_normal (r : Int) (h0 : r ≠ 0) (hr : r.natAbs ≤ 2 ^ 63) :
    (Float64.div (Float64.ofInt64 r) msPerDay).neg = decide (r < 0)
    ∧ (Float64.div (Float64.ofInt64 r) msPerDay).exp < 0
    ∧ 2 ^ 52 ≤ (Float64.div (Float64.ofInt64 r) msPerDay).mant
    ∧ (Float64.div (Float64.ofInt64 r) msPerDay).mant ≤ 2 ^ 53 := by
  have ha : 0 < r.natAbs := by omega
  -- the conversion
  have hL1lo : -((0 : Nat) : Int) ≤ ilog2 r.natAbs 1 := le_ilog2 r.natAbs 1 0 ha (by norm_num) (by omega)
  have hL1hi : ilog2 r.natAbs 1 ≤ (63 : Nat) :=
    ilog2_le r.natAbs 1 63 ha (by norm_num) (by norm_num; omega)
  obtain ⟨x1, x2, x3, x4⟩ := roundNearestEven_normal (decide (r < 0)) r.natAbs 1 ha
    (by norm_num) (by omega)
  have hxm : 0 < (Float64.ofInt64 r).mant := by
    have : 0 < 2 ^ 52 := by norm_num
    exact lt_of_lt_of_le this x3
  -- the numerator and the denominator of the quotient
  have hdiv : ∃ a d : Nat, 0 < a ∧ 0 < d ∧ d ≤ a * 2 ^ 27 ∧ a < d * 2 ^ 52
      ∧ Float64.div (Float64.ofInt64 r) msPerDay = roundNearestEven (decide (r < 0)) a d := by
    unfold Float64.div
    simp only [msPerDay, sub_zero, Bool.xor_false]
    change ∃ a d : Nat, 0 < a ∧ 0 < d ∧ d ≤ a * 2 ^ 27 ∧ a < d * 2 ^ 52
      ∧ roundNearestEven (Float64.ofInt64 r).neg _ _ = roundNearestEven (decide (r < 0)) a d
    have hneg : (Float64.ofInt64 r).neg = decide (r < 0) := x1
    have hexp : (Float64.ofInt64 r).exp = ilog2 r.natAbs 1 - 52 := x2
    have hm1 : 2 ^ 52 ≤ (Float64.ofInt64 r).mant := x3
    have hm2 : (Float64.ofInt64 r).mant ≤ 2 ^ 53 := x4
    rw [hneg]
    by_cases hs : 0 ≤ (Float64.ofInt64 r).exp
    · simp only [hs, if_true]
      obtain ⟨t, ht⟩ : ∃ t : Nat, (Float64.ofInt64 r).exp = (t : Int) ∧ t ≤ 11 :=
        ⟨(Float64.ofInt64 r).exp.toNat, by omega, by omega⟩
      have e : (Float64.ofInt64 r).exp.toNat = t := by omega
      rw [e]
      have hp1 : 1 ≤ 2 ^ t := Nat.pow_pos (by norm_num)
      have hp2 : 2 ^ t ≤ 2 ^ 11 := Nat.pow_le_pow_right (by norm_num) ht.2
      have hlo : (Float64.ofInt64 r).mant ≤ (Float64.ofInt64 r).mant * 2 ^ t :=
        Nat.le_mul_of_pos_right _ hp1
      have hhi : (Float64.ofInt64 r).mant * 2 ^ t ≤ 2 ^ 53 * 2 ^ 11 := Nat.mul_le_mul hm2 hp2
      refine ⟨_, _, ?_, by norm_num, ?_, ?_, rfl⟩
      · omega
      · norm_num at hm1 hlo ⊢
        omega
      · norm_num at hhi ⊢
        omega
    · simp only [hs, if_false]
      obtain ⟨t, ht⟩ : ∃ t : Nat, -(Float64.ofInt64 r).exp = (t : Int) ∧ t ≤ 52 ∧ 1 ≤ t :=
        ⟨(-(Float64.ofInt64 r).exp).toNat, by omega, by omega, by omega⟩
      have e : (-(Float64.ofInt64 r).exp).toNat = t := by omega
      rw [e]
      have hp1 : 2 ^ 1 ≤ 2 ^ t := Nat.pow_le_pow_right (by norm_num) ht.2.2
      have hp2 : 2 ^ t ≤ 2 ^ 52 := Nat.pow_le_pow_right (by norm_num) ht.2.1
      refine ⟨_, _, hxm, Nat.mul_pos (by norm_num) (Nat.pow_pos (by norm_num)), ?_, ?_, rfl⟩
      · norm_num at hm1 hp2 ⊢
        omega
      · have h1 : 86400000 * 2 ^ 1 * 2 ^ 52 ≤ 86400000 * 2 ^ t * 2 ^ 52 :=
          Nat.mul_le_mul_right _ (Nat.mul_le_mul_left _ hp1)
        norm_num at hm2 h1 ⊢
        omega
  obtain ⟨a, d, ha', hd', hlo, hhi, heq⟩ := hdiv
  have hL2lo := le_ilog2 a d 27 ha' hd' hlo
  have hL2hi := ilog2_le a d 51 ha' hd' (by simpa using hhi)
  obtain ⟨y1, y2, y3, y4⟩ := roundNearestEven_normal (decide (r < 0)) a d ha' hd' (by omega)
  rw [heq]
  refine ⟨y1, ?_, y3, y4⟩
  rw [y2]
  omega
theorem wrap64_isInt64 (x : Int) : isInt64 (wrap64 x) := by
  unfold isInt64 wrap64
  omega

theorem daysRemainingOf_sign (r : Int) (hr : isInt64 r) :
    (r ≤ 0 → daysRemainingOf r ≤ 0) ∧ (0 < r → 1 ≤ daysRemainingOf r) := by
  by_cases h0 : r = 0
  · subst h0
    exact ⟨fun _ => by decide, fun h => by omega⟩
  · have habs : r.natAbs ≤ 2 ^ 63 := by
      unfold isInt64 at hr
      omega
    obtain ⟨q1, q2, q3, q4⟩ := div_ofInt64_normal r h0 habs
    have hexp : ¬ (0 ≤ (Float64.div (Float64.ofInt64 r) msPerDay).exp) := by omega
    have hp : 0 < 2 ^ (-(Float64.div (Float64.ofInt64 r) msPerDay).exp).toNat :=
      Nat.pow_pos (by norm_num)
    norm_num at q3 q4
    unfold daysRemainingOf
    constructor
    · intro hle
      have hneg : r < 0 := by omega
      have hn : (Float64.div (Float64.ofInt64 r) msPerDay).neg = true := by
        rw [q1]; exact decide_eq_true hneg
      simp only [Ceil, hexp, if_false, hn, if_true, Float64.toInt64, le_refl, Int.toNat_zero,
        pow_zero, mul_one]
      generalize (Float64.div (Float64.ofInt64 r) msPerDay).mant
        / 2 ^ (-(Float64.div (Float64.ofInt64 r) msPerDay).exp).toNat = q
      split_ifs
      · omega
      · norm_num
    · intro hpos
      have hn : (Float64.div (Float64.ofInt64 r) msPerDay).neg = false := by
        rw [q1]; exact decide_eq_false (by omega)
      simp only [Ceil, hexp, if_false, hn, Float64.toInt64, le_refl, Int.toNat_zero,
        pow_zero, mul_one, if_true, Bool.false_eq_true]
      obtain ⟨m, hm⟩ : ∃ m, m = (Float64.div (Float64.ofInt64 r) msPerDay).mant := ⟨_, rfl⟩
      obtain ⟨p, hpp⟩ : ∃ p, p = 2 ^ (-(Float64.div (Float64.ofInt64 r) msPerDay).exp).toNat :=
        ⟨_, rfl⟩
      rw [← hm, ← hpp]
      rw [← hm] at q3 q4
      rw [← hpp] at hp
      have hlo : 1 ≤ (m + p - 1) / p := by
        apply (Nat.one_le_div_iff hp).mpr
        omega
      have hhi : (m + p - 1) / p < m + 1 := by
        apply (Nat.div_lt_iff_lt_mul hp).mpr
        have h1 : m ≤ m * p := Nat.le_mul_of_pos_right _ hp
        have h2 : (m + 1) * p = m * p + p := by ring
        omega
      have hin : isInt64 (((m + p - 1) / p : Nat) : Int) := by
        unfold isInt64
        omega
      simp only [hin, if_true]
      omega
/-- C17: in every 200 answer that carries daysRemaining (found identifier,
expiryTime > 0), for every clock reading, the field expired is true exactly
when the field daysRemaining, computed in binary64, is at most 0; an answer
with expired = false reports daysRemaining of at least 1. -/
theorem getClientExpiryByUUID_flag_matches_days
    (resolver : String → Int × Bool × Option String)
    (now : Int) (c : Context) (uuid : String) (expiryTime : Int)
    (hid : uuid = if TrimSpace (c.Param "uuid") = "" then TrimSpace (c.Query "uuid")
                  else TrimSpace (c.Param "uuid"))
    (hne : uuid ≠ "") (hres : resolver uuid = (expiryTime, true, none))
    (hpos : 0 < expiryTime) (hw : c.Writer.written = false) :
    ∃ (expired : Bool) (days : Int),
      (getClientExpiryByUUID resolver now c).field "expired" = some (Any.bool expired)
      ∧ (getClientExpiryByUUID resolver now c).field "daysRemaining" = some (Any.int64 days)
      ∧ (expired = true ↔ days ≤ 0)
      ∧ (expired = false ↔ 1 ≤ days) := by
  have hgt : expiryTime > 0 := hpos
  have hs := daysRemainingOf_sign (sub64 expiryTime now) (wrap64_isInt64 _)
  refine ⟨decide (sub64 expiryTime now ≤ 0), daysRemainingOf (sub64 expiryTime now), ?_, ?_, ?_,
    ?_⟩
  · rw [getClientExpiryByUUID_found resolver now c uuid expiryTime hid hne hres hw]
    simp [Context.field, Context.emitted, hgt, H.get]
  · rw [getClientExpiryByUUID_found resolver now c uuid expiryTime hid hne hres hw]
    simp [Context.field, Context.emitted, hgt, H.get]
  · rw [decide_eq_true_iff]
    constructor
    · exact hs.1
    · intro h
      by_contra hcon
      have := hs.2 (by omega)
      omega
  · rw [decide_eq_false_iff_not]
    constructor
    · intro h
      exact hs.2 (by omega)
    · intro h hle
      have := hs.1 hle
      omega

/-- C12: for a found identifier whose expiryTime (an int64) is strictly greater
than the clock reading now, the clock reading epoch milliseconds at or after
the epoch as `time.Now().UnixMilli()` does, the endpoint answers HTTP 200 with
expired = false and daysRemaining at least 0 (in fact at least 1); with
expiryTime = 1735689600000 and now = 1735603200000 it reports daysRemaining =
1, expired = false and expiryDate = "2025-01-01". -/
theorem getClientExpiryByUUID_future (resolver : String → Int × Bool × Option String)
    (now : Int) (c : Context) (uuid : String) (expiryTime : Int)
    (hid : uuid = if TrimSpace (c.Param "uuid") = "" then TrimSpace (c.Query "uuid")
                  else TrimSpace (c.Param "uuid"))
    (hne : uuid ≠ "") (hres : resolver uuid = (expiryTime, true, none))
    (hw : c.Writer.written = false)
    (hint : isInt64 expiryTime) (hclock : 0 ≤ now) (hfuture : now < expiryTime) :
    (getClientExpiryByUUID resolver now c).Writer.status = 200
    ∧ (getClientExpiryByUUID resolver now c).field "expired" = some (Any.bool false)
    ∧ (∃ days : Int,
        (getClientExpiryByUUID resolver now c).field "daysRemaining" = some (Any.int64 days)
        ∧ 0 ≤ days ∧ 1 ≤ days)
    ∧ (expiryTime = 1735689600000 → now = 1735603200000 →
        (getClientExpiryByUUID resolver now c).field "daysRemaining" = some (Any.int64 1)
        ∧ (getClientExpiryByUUID resolver now c).field "expiryDate"
            = some (Any.str "2025-01-01")) := by
  have hgt : expiryTime > 0 := by omega
  have hin : isInt64 (expiryTime - now) := by
    unfold isInt64 at hint ⊢
    omega
  have hsub : sub64 expiryTime now = expiryTime - now := wrap64_of_isInt64 _ hin
  have hs := (daysRemainingOf_sign (expiryTime - now) hin).2 (by omega)
  have hnle : ¬ (expiryTime ≤ now) := by omega
  rw [getClientExpiryByUUID_found resolver now c uuid expiryTime hid hne hres hw]
  refine ⟨rfl, ?_, ⟨daysRemainingOf (expiryTime - now), ?_, by omega, hs⟩, ?_⟩
  · simp [Context.field, Context.emitted, hgt, H.get, hsub, hnle]
  · simp [Context.field, Context.emitted, hgt, H.get, hsub]
  · intro h1 h2
    subst h1 h2
    have hd0 : sub64 1735689600000 1735603200000 = 86400000 := by
      unfold sub64 wrap64
      norm_num
    have hd : daysRemainingOf (sub64 1735689600000 1735603200000) = 1 := by
      rw [hd0]
      decide
    have hf : (UnixMilli 1735689600000).Format = "2025-01-01" := by decide
    simp [Context.field, Context.emitted, H.get, hd, hf]

/-! ## The route table -/

theorem registerRoutes_eq (routes : List Registration) (group : RouterGroup) :
    ∀ engine : List RouteInfo,
      registerRoutes routes group engine
        = engine ++ routes.map (fun r =>
            { Method := r.Method,
              Path := joinPaths group.basePath r.Path,
              Handlers := group.Handlers ++ r.Handlers }) := by
  induction routes with
  | nil => intro engine; simp [registerRoutes]
  | cons r rest ih =>
    intro engine
    have h := ih (group.handle engine r.Method r.Path r.Handlers)
    unfold registerRoutes at h ⊢
    rw [List.foldl_cons, h]
    simp [RouterGroup.handle, RouterGroup.calculateAbsolutePath, RouterGroup.combineHandlers]

/-- C16: the route table built by `initRouter` consists of the two public GET
routes client-expiry and client-expiry/:uuid, whose chain is the incoming
group's middleware followed by getClientExpiryByUUID and holds no checkAPIAuth,
then every route of the inbounds and of the server controller and the GET
route backuptotgbot, each with checkAPIAuth right after the incoming group's
middleware and ahead of the route's own handlers; for a group mounted at "/"
the paths are those under /panel/api. -/
theorem initRouter_table (inboundRoutes serverRoutes : List Registration) (g : RouterGroup)
    (engine : List RouteInfo) (hgate : Handler.checkAPIAuth ∉ g.Handlers) :
    initRouter inboundRoutes serverRoutes g engine
      = engine
        ++ [{ Method := "GET",
              Path := joinPaths (joinPaths g.basePath "/panel/api/public") "/client-expiry",
              Handlers := g.Handlers ++ [Handler.getClientExpiryByUUID] },
            { Method := "GET",
              Path := joinPaths (joinPaths g.basePath "/panel/api/public") "/client-expiry/:uuid",
              Handlers := g.Handlers ++ [Handler.getClientExpiryByUUID] }]
        ++ inboundRoutes.map (fun r =>
            { Method := r.Method,
              Path := joinPaths (joinPaths (joinPaths g.basePath "/panel/api") "/inbounds") r.Path,
              Handlers := g.Handlers ++ Handler.checkAPIAuth :: r.Handlers })
        ++ serverRoutes.map (fun r =>
            { Method := r.Method,
              Path := joinPaths (joinPaths (joinPaths g.basePath "/panel/api") "/server") r.Path,
              Handlers := g.Handlers ++ Handler.checkAPIAuth :: r.Handlers })
        ++ [{ Method := "GET",
              Path := joinPaths (joinPaths g.basePath "/panel/api") "/backuptotgbot",
              Handlers := g.Handlers ++ [Handler.checkAPIAuth, Handler.BackuptoTgbot] }]
    ∧ Handler.checkAPIAuth ∉ g.Handlers ++ [Handler.getClientExpiryByUUID]
    ∧ (g.basePath = "/" →
        joinPaths (joinPaths g.basePath "/panel/api/public") "/client-expiry"
          = "/panel/api/public/client-expiry"
        ∧ joinPaths (joinPaths g.basePath "/panel/api/public") "/client-expiry/:uuid"
          = "/panel/api/public/client-expiry/:uuid"
        ∧ joinPaths (joinPaths g.basePath "/panel/api") "/backuptotgbot"
          = "/panel/api/backuptotgbot"
        ∧ joinPaths (joinPaths g.basePath "/panel/api") "/inbounds" = "/panel/api/inbounds"
        ∧ joinPaths (joinPaths g.basePath "/panel/api") "/server" = "/panel/api/server") := by
  refine ⟨?_, ?_, ?_⟩
  · unfold initRouter
    simp only [registerRoutes_eq, RouterGroup.GET, RouterGroup.handle, RouterGroup.Group,
      RouterGroup.Use, RouterGroup.combineHandlers, RouterGroup.calculateAbsolutePath,
      List.append_nil, List.append_assoc, List.singleton_append, List.cons_append,
      List.nil_append]
  · simp [hgate]
  · intro hb
    rw [hb]
    decide

/-! ## The date computed by `time` is the calendar date -/

theorem specLeapYear_iff (year : Nat) :
    specLeapYear year = true ↔ (year % 4 = 0 ∧ (year % 100 ≠ 0 ∨ year % 400 = 0)) := by
  unfold specLeapYear
  exact decide_eq_true_iff

theorem specDaysBeforeYear_closed (n : Nat) :
    specDaysBeforeYear n + 477 + (1969 + n) / 100
      = 365 * n + (1969 + n) / 4 + (1969 + n) / 400 := by
  induction n with
  | zero => simp [specDaysBeforeYear]
  | succ k ih =>
    unfold specDaysBeforeYear specDaysInYear
    by_cases h : specLeapYear (1970 + k) = true
    · rw [if_pos h]
      have hc := (specLeapYear_iff _).mp h
      omega
    · rw [if_neg h]
      have hc : ¬ ((1970 + k) % 4 = 0 ∧ ((1970 + k) % 100 ≠ 0 ∨ (1970 + k) % 400 = 0)) :=
        fun hc => h ((specLeapYear_iff _).mpr hc)
      omega

theorem yearCycle_arith (D n400 d1 n100 m100 d2 n4 d3 n1 m1 y yday : Nat)
    (h1 : n400 = D / 146097) (h2 : d1 = D - 146097 * n400)
    (h3 : n100 = d1 / 36524) (h4 : m100 = n100 - n100 / 4) (h5 : d2 = d1 - 36524 * m100)
    (h6 : n4 = d2 / 1461) (h7 : d3 = d2 - 1461 * n4)
    (h8 : n1 = d3 / 365) (h9 : m1 = n1 - n1 / 4)
    (h10 : y = 400 * n400 + 100 * m100 + 4 * n4 + m1) (h11 : yday = d3 - 365 * m1) :
    D + y / 100 = 365 * y + y / 4 + y / 400 + yday
    ∧ yday ≤ 365
    ∧ (yday = 365 → (y + 1) % 4 = 0 ∧ ((y + 1) % 100 ≠ 0 ∨ (y + 1) % 400 = 0)) := by
  have a1 : D = 146097 * n400 + d1 ∧ d1 < 146097 := by omega
  have a2 : n100 ≤ 4 := by omega
  have a3 : m100 ≤ 3 ∧ d1 = 36524 * m100 + d2 ∧ d2 ≤ 36524 ∧ (m100 < 3 → d2 < 36524) := by
    interval_cases n100 <;> omega
  have a4 : n4 ≤ 24 ∧ d2 = 1461 * n4 + d3 ∧ d3 ≤ 1460 ∧ (d2 < 36524 → n4 = 24 → d3 < 1460) := by
    omega
  have a5 : n1 ≤ 4 := by omega
  have a6 : m1 ≤ 3 ∧ d3 = 365 * m1 + yday ∧ yday ≤ 365 ∧ (yday = 365 → m1 = 3 ∧ d3 = 1460) := by
    interval_cases n1 <;> omega
  have b1 : y / 400 = n400 := by omega
  have b2 : y / 100 = 4 * n400 + m100 := by omega
  have b3 : y / 4 = 100 * n400 + 25 * m100 + n4 := by omega
  refine ⟨?_, a6.2.2.1, ?_⟩
  · rw [b1, b2, b3]
    omega
  · intro h
    have c1 := a6.2.2.2 h
    omega


theorem cal_mono (a b : Nat) (h : a ≤ b) :
    365 * a + a / 4 + a / 400 + b / 100 ≤ 365 * b + b / 4 + b / 400 + a / 100 := by
  omega

theorem cal_step (y : Nat) :
    365 * y + y / 4 + y / 400 + (y + 1) / 100 + 365
      ≤ 365 * (y + 1) + (y + 1) / 4 + (y + 1) / 400 + y / 100
    ∧ (((y + 1) % 4 = 0 ∧ ((y + 1) % 100 ≠ 0 ∨ (y + 1) % 400 = 0)) →
      365 * y + y / 4 + y / 400 + (y + 1) / 100 + 366
        = 365 * (y + 1) + (y + 1) / 4 + (y + 1) / 400 + y / 100) := by
  constructor
  · omega
  · intro h
    omega

theorem year_lower (D y yday : Nat) (c1 : D + y / 100 = 365 * y + y / 4 + y / 400 + yday)
    (c2 : yday ≤ 365)
    (c3 : yday = 365 → (y + 1) % 4 = 0 ∧ ((y + 1) % 100 ≠ 0 ∨ (y + 1) % 400 = 0))
    (hD1 : 106751991073094 ≤ D) : 292277024369 ≤ y := by
  by_contra hcon
  have h := cal_mono (y + 1) 292277024369 (by omega)
  have hs := cal_step y
  by_cases hy : yday = 365
  · have := hs.2 (c3 hy)
    omega
  · have := hs.1
    omega


theorem dayNumber_arith (D y yday N S : Nat)
    (c1 : D + y / 100 = 365 * y + y / 4 + y / 400 + yday)
    (hN : y = N + 292277022399) (hN1 : 1970 ≤ N)
    (hcl : S + 477 + (N - 1) / 100 = 365 * (N - 1970) + (N - 1) / 4 + (N - 1) / 400) :
    S + yday + 106751991073094 = D := by
  obtain ⟨M, hM⟩ : ∃ M, N = M + 1 := ⟨N - 1, by omega⟩
  subst hM
  subst hN
  simp only [Nat.add_sub_cancel] at hcl
  have q4 : (M + 1 + 292277022399) / 4 = M / 4 + 73069255600 := by omega
  have q100 : (M + 1 + 292277022399) / 100 = M / 100 + 2922770224 := by omega
  have q400 : (M + 1 + 292277022399) / 400 = M / 400 + 730692556 := by omega
  rw [q4, q100, q400] at c1
  omega

theorem leap_shift (N y : Nat) (hN : y = N + 292277022399) :
    (N % 4 = 0 ∧ (N % 100 ≠ 0 ∨ N % 400 = 0))
      ↔ ((y + 1) % 4 = 0 ∧ ((y + 1) % 100 ≠ 0 ∨ (y + 1) % 400 = 0)) := by
  subst hN
  have e4 : (N + 292277022399 + 1) % 4 = N % 4 := by omega
  have e100 : (N + 292277022399 + 1) % 100 = N % 100 := by omega
  have e400 : (N + 292277022399 + 1) % 400 = N % 400 := by omega
  rw [e4, e100, e400]

theorem year_upper (D y yday : Nat) (c1 : D + y / 100 = 365 * y + y / 4 + y / 400 + yday)
    (hD2 : D < 213503982334602) : y < 1000000000000 := by
  by_contra hcon
  have h := cal_mono 1000000000000 y (by omega)
  omega

theorem isLeap_eq_spec (N : Nat) : isLeap (N : Int) = specLeapYear N := by
  unfold isLeap specLeapYear
  have h4 : (Int.tmod (N : Int) 4 = 0) ↔ (N % 4 = 0) := by
    rw [Int.tmod_eq_emod (by omega) (by norm_num)]; omega
  have h100 : (Int.tmod (N : Int) 100 = 0) ↔ (N % 100 = 0) := by
    rw [Int.tmod_eq_emod (by omega) (by norm_num)]; omega
  have h400 : (Int.tmod (N : Int) 400 = 0) ↔ (N % 400 = 0) := by
    rw [Int.tmod_eq_emod (by omega) (by norm_num)]; omega
  simp only [ne_eq, h4, h100, h400]
  by_cases c4 : N % 4 = 0 <;> by_cases c100 : N % 100 = 0 <;> by_cases c400 : N % 400 = 0 <;>
    simp [c4, c100, c400]

theorem monthDay_spec (year : Int) (N yday : Nat) (hyear : year = (N : Int))
    (hy : yday < specDaysInYear N) :
    ∃ month day : Nat,
      (if isLeap year = true ∧ yday = 31 + 29 - 1 then (year, 2, 29)
       else
         let day := if isLeap year = true ∧ 31 + 29 - 1 < yday then yday - 1 else yday
         let month := day / 31
         let e := daysBefore.getD (month + 1) 0
         if e ≤ day then (year, month + 2, day - e + 1)
         else (year, month + 1, day - daysBefore.getD month 0 + 1))
        = (year, month, day)
      ∧ specValidDate N month day
      ∧ specDaysBeforeMonth N month + (day - 1) = yday := by
  subst hyear
  rw [isLeap_eq_spec]
  unfold specDaysInYear at hy
  unfold specValidDate
  cases hl : specLeapYear N with
  | true =>
    rw [hl] at hy
    simp only [if_true] at hy
    by_cases h59 : yday = 59
    · refine ⟨2, 29, ?_, ?_, ?_⟩
      · simp [h59]
      · simp [specDaysInMonth, hl]
      · simp [specDaysBeforeMonth, specDaysInMonth, h59]
    · by_cases hgt : 59 < yday
      · obtain ⟨k, hk⟩ : ∃ k, yday = k + 1 := ⟨yday - 1, by omega⟩
        subst hk
        have hk : k < 365 := by omega
        have hk2 : 59 ≤ k := by omega
        have hm : k / 31 < 12 := by omega
        have hm2 : 1 ≤ k / 31 := by omega
        simp only [h59, hgt, and_false, and_self, if_true, if_false, Nat.add_sub_cancel,
          Nat.reduceAdd, Nat.reduceSub, true_and]
        obtain ⟨m, hmm⟩ : ∃ m, m = k / 31 := ⟨_, rfl⟩
        rw [← hmm]
        rw [← hmm] at hm hm2
        interval_cases m <;> simp only [daysBefore, List.getD_cons_succ, List.getD_cons_zero,
          Nat.reduceAdd] <;> split_ifs <;>
          exact ⟨_, _, rfl, by simp [specDaysInMonth, hl]; try omega,
            by simp [specDaysBeforeMonth, specDaysInMonth, hl]; try omega⟩
      · have hk : yday < 59 := by omega
        have hm : yday / 31 < 2 := by omega
        simp only [h59, hgt, and_false, and_self, if_true, if_false,
          Nat.reduceAdd, Nat.reduceSub, true_and]
        obtain ⟨m, hmm⟩ : ∃ m, m = yday / 31 := ⟨_, rfl⟩
        rw [← hmm]
        rw [← hmm] at hm
        interval_cases m <;> simp only [daysBefore, List.getD_cons_succ, List.getD_cons_zero,
          Nat.reduceAdd] <;> split_ifs <;>
          exact ⟨_, _, rfl, by simp [specDaysInMonth, hl]; try omega,
            by simp [specDaysBeforeMonth, specDaysInMonth, hl]; try omega⟩
  | false =>
    rw [hl] at hy
    simp only [Bool.false_eq_true, if_false] at hy
    have hm : yday / 31 < 12 := by omega
    simp only [Bool.false_eq_true, false_and, if_false]
    obtain ⟨m, hmm⟩ : ∃ m, m = yday / 31 := ⟨_, rfl⟩
    rw [← hmm]
    rw [← hmm] at hm
    interval_cases m <;> simp only [daysBefore, List.getD_cons_succ, List.getD_cons_zero,
      Nat.reduceAdd] <;> split_ifs <;>
      exact ⟨_, _, rfl, by simp [specDaysInMonth, hl]; try omega,
        by simp [specDaysBeforeMonth, specDaysInMonth, hl]; try omega⟩

theorem absDate_elim (abs : Nat) (P : Int × Nat × Nat → Prop)
    (h : ∀ (D n400 d1 n100 m100 d2 n4 d3 n1 m1 y yday : Nat) (year : Int),
      D = abs / 86400 → n400 = D / 146097 → d1 = D - 146097 * n400 →
      n100 = d1 / 36524 → m100 = n100 - n100 / 4 → d2 = d1 - 36524 * m100 →
      n4 = d2 / 1461 → d3 = d2 - 1461 * n4 →
      n1 = d3 / 365 → m1 = n1 - n1 / 4 →
      y = 400 * n400 + 100 * m100 + 4 * n4 + m1 → yday = d3 - 365 * m1 →
      year = wrap64 ((y : Int) + absoluteZeroYear) →
      P (if isLeap year = true ∧ yday = 31 + 29 - 1 then (year, 2, 29)
         else
           let day := if isLeap year = true ∧ 31 + 29 - 1 < yday then yday - 1 else yday
           let month := day / 31
           let e := daysBefore.getD (month + 1) 0
           if e ≤ day then (year, month + 2, day - e + 1)
           else (year, month + 1, day - daysBefore.getD month 0 + 1))) :
    P (absDate abs) :=
  h _ _ _ _ _ _ _ _ _ _ _ _ _ rfl rfl rfl rfl rfl rfl rfl rfl rfl rfl rfl rfl rfl

theorem absDate_spec (abs : Nat) (hlo : 9223372028715321600 ≤ abs) (hhi : abs < 2 ^ 64) :
    ∃ year month day : Nat,
      absDate abs = ((year : Int), month, day)
      ∧ 1970 ≤ year
      ∧ specValidDate year month day
      ∧ specDayNumber year month day + 106751991073094 = abs / 86400 := by
  apply absDate_elim abs
    (fun r => ∃ year month day : Nat, r = ((year : Int), month, day) ∧ 1970 ≤ year
      ∧ specValidDate year month day
      ∧ specDayNumber year month day + 106751991073094 = abs / 86400)
  intro D n400 d1 n100 m100 d2 n4 d3 n1 m1 y yday year h0 h1 h2 h3 h4 h5 h6 h7 h8 h9 h10 h11 hyr
  obtain ⟨c1, c2, c3⟩ := yearCycle_arith D n400 d1 n100 m100 d2 n4 d3 n1 m1 y yday
    h1 h2 h3 h4 h5 h6 h7 h8 h9 h10 h11
  have hD1 : 106751991073094 ≤ D := by omega
  have hD2 : D < 213503982334602 := by
    norm_num at hhi
    omega
  -- the year
  have hy1 : 292277024369 ≤ y := year_lower D y yday c1 c2 c3 hD1
  have hy2 : y < 1000000000000 := year_upper D y yday c1 hD2
  obtain ⟨N, hN⟩ : ∃ N : Nat, y = N + 292277022399 := ⟨y - 292277022399, by omega⟩
  have hyear : year = (N : Int) := by
    rw [hyr, absoluteZeroYear, hN]
    have hin : isInt64 (((N + 292277022399 : Nat) : Int) + -292277022399) := by
      unfold isInt64
      omega
    rw [wrap64_of_isInt64 _ hin]
    omega
  have hN1 : 1970 ≤ N := by omega
  have hleapN : specLeapYear N = true
      ↔ ((y + 1) % 4 = 0 ∧ ((y + 1) % 100 ≠ 0 ∨ (y + 1) % 400 = 0)) := by
    rw [specLeapYear_iff]
    exact leap_shift N y hN
  have hyd : yday < specDaysInYear N := by
    unfold specDaysInYear
    by_cases hl : specLeapYear N = true
    · rw [if_pos hl]; omega
    · rw [if_neg hl]
      by_contra hcon
      have : yday = 365 := by omega
      exact hl (hleapN.mpr (c3 this))
  obtain ⟨month, day, e1, e2, e3⟩ := monthDay_spec year N yday hyear hyd
  refine ⟨N, month, day, ?_, hN1, e2, ?_⟩
  · rw [e1, hyear]
  · unfold specDayNumber
    have hcl := specDaysBeforeYear_closed (N - 1970)
    have e4 : 1969 + (N - 1970) = N - 1 := by omega
    rw [e4] at hcl
    rw [← h0]
    have := dayNumber_arith D y yday N (specDaysBeforeYear (N - 1970)) c1 hN hN1 hcl
    omega

/-! ## The form of the date -/

theorem decimalAux_succ (fuel u : Nat) (acc : List Char) :
    decimalAux (fuel + 1) u acc
      = if u < 10 then digitChar u :: acc else decimalAux fuel (u / 10) (digitChar u :: acc) := by
  rfl

theorem appendInt_two (b : List Char) (x : Nat) (h : x < 100) :
    appendInt b (x : Int) 2 = b ++ [specDigit (x / 10), specDigit x] := by
  unfold appendInt
  have hneg : ¬ ((x : Int) < 0) := by omega
  simp only [Int.natAbs_ofNat, hneg, if_false, List.append_nil]
  by_cases h10 : x < 10
  · rw [decimalAux_succ, if_pos h10]
    have : x / 10 = 0 := by omega
    simp [this, specDigit, digitChar]
  · obtain ⟨f, hf⟩ : ∃ f, x = f + 1 := ⟨x - 1, by omega⟩
    rw [decimalAux_succ, if_neg h10]
    conv_lhs => rw [hf]
    rw [decimalAux_succ, ← hf, if_pos (by omega)]
    simp [specDigit, digitChar]

theorem appendInt_four (b : List Char) (x : Nat) (h1 : 1000 ≤ x) (h2 : x < 10000) :
    appendInt b (x : Int) 4
      = b ++ [specDigit (x / 1000), specDigit (x / 100), specDigit (x / 10), specDigit x] := by
  unfold appendInt
  have hneg : ¬ ((x : Int) < 0) := by omega
  simp only [Int.natAbs_ofNat, hneg, if_false, List.append_nil]
  obtain ⟨f, hf⟩ : ∃ f, x = f + 3 := ⟨x - 3, by omega⟩
  have e : decimalAux (x + 1) x []
      = [digitChar (x / 10 / 10 / 10), digitChar (x / 10 / 10), digitChar (x / 10), digitChar x] := by
    rw [decimalAux_succ, if_neg (by omega)]
    conv_lhs => rw [hf]
    rw [decimalAux_succ, ← hf, if_neg (by omega), decimalAux_succ, if_neg (by omega),
      decimalAux_succ, if_pos (by omega)]
  rw [e]
  have e2 : x / 10 / 10 = x / 100 := by omega
  have e3 : x / 10 / 10 / 10 = x / 1000 := by omega
  rw [e3, e2]
  simp [specDigit, digitChar]

theorem Format_eq_specISODate (t : Time) (year month day : Nat)
    (h : absDate t.abs = ((year : Int), month, day))
    (hy1 : 1000 ≤ year) (hy2 : year < 10000) (hm : month < 100) (hd : day < 100) :
    t.Format = specISODate year month day := by
  unfold Time.Format
  rw [h]
  simp only
  rw [appendInt_four _ _ hy1 hy2]
  rw [show ((month : Int)) = ((month : Nat) : Int) from rfl, appendInt_two _ _ hm,
    appendInt_two _ _ hd]
  simp [specISODate]

theorem UnixMilli_abs (t : Int) (h0 : 0 ≤ t) (h1 : t < 2 ^ 63) :
    (UnixMilli t).abs / 86400 = 106751991073094 + (t / 86400000).toNat
    ∧ 9223372028715321600 ≤ (UnixMilli t).abs ∧ (UnixMilli t).abs < 2 ^ 64 := by
  have hs : Int.tdiv t 1000 = t / 1000 := Int.tdiv_eq_ediv h0 (by norm_num)
  have hm : Int.tmod t 1000 = t % 1000 := Int.tmod_eq_emod h0 (by norm_num)
  have hn : ¬ (t % 1000 * 1000000 < 0 ∨ 1000000000 ≤ t % 1000 * 1000000) := by omega
  have habs : (UnixMilli t).abs = (t / 1000 + 9223372028715321600).toNat := by
    unfold UnixMilli Unix Time.abs
    rw [hs, hm]
    simp only [hn, if_false, unixToInternal, internalToAbsolute]
    norm_num
    have : (t / 1000 + 9223372028715321600) % 18446744073709551616
        = t / 1000 + 9223372028715321600 := by omega
    rw [this]
  rw [habs]
  refine ⟨?_, ?_, ?_⟩
  · omega
  · omega
  · norm_num
    omega

theorem specDaysBeforeYear_mono (a b : Nat) (h : a ≤ b) :
    specDaysBeforeYear a ≤ specDaysBeforeYear b := by
  induction b with
  | zero =>
    have : a = 0 := by omega
    rw [this]
  | succ k ih =>
    by_cases hk : a = k + 1
    · rw [hk]
    · have := ih (by omega)
      have hs : specDaysBeforeYear (k + 1)
          = specDaysBeforeYear k + specDaysInYear (1970 + k) := rfl
      omega

theorem specDaysBeforeMonth_mono (year a b : Nat) (h : a ≤ b) :
    specDaysBeforeMonth year a ≤ specDaysBeforeMonth year b := by
  induction b with
  | zero =>
    have : a = 0 := by omega
    rw [this]
  | succ k ih =>
    by_cases hk : a = k + 1
    · rw [hk]
    · have := ih (by omega)
      have hs : specDaysBeforeMonth year (k + 1)
          = specDaysBeforeMonth year k + (if k = 0 then 0 else specDaysInMonth year k) := rfl
      omega

theorem specDayOfYear_lt (year month day : Nat) (h : specValidDate year month day) :
    specDaysBeforeMonth year month + (day - 1) < specDaysBeforeMonth year (month + 1)
    ∧ specDaysBeforeMonth year (month + 1) ≤ specDaysInYear year := by
  obtain ⟨h1, h2, h3, h4⟩ := h
  have hstep : specDaysBeforeMonth year (month + 1)
      = specDaysBeforeMonth year month + specDaysInMonth year month := by
    conv_lhs => unfold specDaysBeforeMonth
    have : ¬ (month = 0) := by omega
    simp only [this, if_false]
  constructor
  · rw [hstep]
    omega
  · have hmono := specDaysBeforeMonth_mono year (month + 1) 13 (by omega)
    have h13 : specDaysBeforeMonth year 13 = specDaysInYear year := by
      cases hl : specLeapYear year <;>
        simp [specDaysBeforeMonth, specDaysInMonth, specDaysInYear, hl]
    omega

theorem specDate_unique (y1 m1 d1 y2 m2 d2 : Nat)
    (h1 : specValidDate y1 m1 d1) (h2 : specValidDate y2 m2 d2)
    (hy1 : 1970 ≤ y1) (hy2 : 1970 ≤ y2)
    (h : specDayNumber y1 m1 d1 = specDayNumber y2 m2 d2) :
    y1 = y2 ∧ m1 = m2 ∧ d1 = d2 := by
  have a1 := specDayOfYear_lt y1 m1 d1 h1
  have a2 := specDayOfYear_lt y2 m2 d2 h2
  unfold specDayNumber at h
  have year_lt : ∀ (ya ma da yb mb db : Nat), 1970 ≤ ya → ya < yb →
      specDaysBeforeMonth ya ma + (da - 1) < specDaysInYear ya →
      specDaysBeforeYear (ya - 1970) + specDaysBeforeMonth ya ma + (da - 1)
        < specDaysBeforeYear (yb - 1970) + specDaysBeforeMonth yb mb + (db - 1) := by
    intro ya ma da yb mb db hya hlt hdoy
    have hm := specDaysBeforeYear_mono (ya - 1970 + 1) (yb - 1970) (by omega)
    have hs : specDaysBeforeYear (ya - 1970 + 1)
        = specDaysBeforeYear (ya - 1970) + specDaysInYear (1970 + (ya - 1970)) := rfl
    have e : 1970 + (ya - 1970) = ya := by omega
    rw [e] at hs
    omega
  have hy : y1 = y2 := by
    rcases Nat.lt_trichotomy y1 y2 with hlt | heq | hgt
    · have := year_lt y1 m1 d1 y2 m2 d2 hy1 hlt (by omega)
      omega
    · exact heq
    · have := year_lt y2 m2 d2 y1 m1 d1 hy2 hgt (by omega)
      omega
  subst hy
  have hdoy : specDaysBeforeMonth y1 m1 + (d1 - 1) = specDaysBeforeMonth y1 m2 + (d2 - 1) := by
    omega
  have hm : m1 = m2 := by
    rcases Nat.lt_trichotomy m1 m2 with hlt | heq | hgt
    · have := specDaysBeforeMonth_mono y1 (m1 + 1) m2 (by omega)
      omega
    · exact heq
    · have := specDaysBeforeMonth_mono y1 (m2 + 1) m1 (by omega)
      omega
  subst hm
  have := h1.2.2.1
  have := h2.2.2.1
  exact ⟨rfl, rfl, by omega⟩

theorem specDayNumber_year_le (year month day : Nat)
    (h : specDayNumber year month day < 2932897) : year ≤ 9999 := by
  by_contra hcon
  unfold specDayNumber at h
  have hcl := specDaysBeforeYear_closed (year - 1970)
  have e : 1969 + (year - 1970) = year - 1 := by omega
  rw [e] at hcl
  have hm := cal_mono 9999 (year - 1) (by omega)
  omega

/-! ## The expiry date -/

theorem specDaysInMonth_le (year month : Nat) : specDaysInMonth year month ≤ 31 := by
  unfold specDaysInMonth
  split_ifs <;> omega

/-- C11, amended: for a found identifier with 0 < expiryTime < 253402300800000
(an instant before the year 10000) the endpoint answers HTTP 200 and the field
expiryDate is, whatever the clock reads, the calendar date year-month-day whose
day number since 1 January 1970 is the whole number of days in expiryTime
milliseconds, written as YYYY-MM-DD; expiryTime = 1735689600000 gives
"2025-01-01". -/
theorem getClientExpiryByUUID_expiryDate (resolver : String → Int × Bool × Option String)
    (c : Context) (uuid : String) (expiryTime : Int)
    (hid : uuid = if TrimSpace (c.Param "uuid") = "" then TrimSpace (c.Query "uuid")
                  else TrimSpace (c.Param "uuid"))
    (hne : uuid ≠ "") (hres : resolver uuid = (expiryTime, true, none))
    (hw : c.Writer.written = false)
    (hpos : 0 < expiryTime) (hlt : expiryTime < 253402300800000) :
    ∃ year month day : Nat,
      1970 ≤ year ∧ year ≤ 9999
      ∧ specValidDate year month day
      ∧ (specDayNumber year month day : Int) = expiryTime / 86400000
      ∧ (∀ now : Int,
          (getClientExpiryByUUID resolver now c).Writer.status = 200
          ∧ (getClientExpiryByUUID resolver now c).field "expiryDate"
              = some (Any.str (specISODate year month day)))
      ∧ (expiryTime = 1735689600000 → specISODate year month day = "2025-01-01") := by
  have hgt : expiryTime > 0 := hpos
  have h63 : expiryTime < 2 ^ 63 := by
    have : (253402300800000 : Int) < 2 ^ 63 := by norm_num
    omega
  obtain ⟨ha1, ha2, ha3⟩ := UnixMilli_abs expiryTime (by omega) h63
  obtain ⟨year, month, day, hd, hy, hv, hn⟩ := absDate_spec (UnixMilli expiryTime).abs ha2 ha3
  have hnum : specDayNumber year month day = (expiryTime / 86400000).toNat := by omega
  have hy2 : year ≤ 9999 := specDayNumber_year_le year month day (by omega)
  have hm : month < 100 := by
    have := hv.2.1
    omega
  have hdd : day < 100 := by
    have := hv.2.2.2
    have := specDaysInMonth_le year month
    omega
  have hfmt : (UnixMilli expiryTime).Format = specISODate year month day :=
    Format_eq_specISODate _ year month day hd (by omega) (by omega) hm hdd
  refine ⟨year, month, day, hy, hy2, hv, by omega, ?_, ?_⟩
  · intro now
    rw [getClientExpiryByUUID_found resolver now c uuid expiryTime hid hne hres hw]
    refine ⟨rfl, ?_⟩
    simp [Context.field, Context.emitted, hgt, H.get, hfmt]
  · intro he
    subst he
    rw [← hfmt]
    decide

/-- C11, counterexample: for expiryTime = 253402300800000, the first instant of
the year 10000, the field expiryDate is "10000-01-01", eleven characters with a
year of five digits, not the form YYYY-MM-DD. -/
theorem expiryDate_year_10000 :
    (0 : Int) < 253402300800000 ∧ isInt64 253402300800000
    ∧ (getClientExpiryByUUID (fun _ => (253402300800000, true, none)) 1700000000000
        (newContext [("uuid", "abc")] [] [])).Writer.status = 200
    ∧ (getClientExpiryByUUID (fun _ => (253402300800000, true, none)) 1700000000000
        (newContext [("uuid", "abc")] [] [])).field "expiryDate"
        = some (Any.str "10000-01-01")
    ∧ ("10000-01-01" : String).length = 11 := by
  refine ⟨by decide, by decide, ?_, ?_, by decide⟩
  · rw [getClientExpiryByUUID_found _ 1700000000000 _ "abc" 253402300800000 (by decide)
      (by decide) rfl rfl]
  · rw [getClientExpiryByUUID_found _ 1700000000000 _ "abc" 253402300800000 (by decide)
      (by decide) rfl rfl]
    have hf : (UnixMilli 253402300800000).Format = "10000-01-01" := by decide
    simp [Context.field, Context.emitted, H.get, hf]

/-! ## Instances at concrete requests, continued -/

theorem getClientExpiryByUUID_expiryDate_witness :
    ∃ year month day : Nat,
      1970 ≤ year ∧ year ≤ 9999
      ∧ specValidDate year month day
      ∧ (specDayNumber year month day : Int) = (1735689600000 : Int) / 86400000
      ∧ (∀ now : Int,
          (getClientExpiryByUUID (fun _ => (1735689600000, true, none)) now
            (newContext [("uuid", "abc")] [] [])).Writer.status = 200
          ∧ (getClientExpiryByUUID (fun _ => (1735689600000, true, none)) now
            (newContext [("uuid", "abc")] [] [])).field "expiryDate"
              = some (Any.str (specISODate year month day)))
      ∧ ((1735689600000 : Int) = 1735689600000 → specISODate year month day = "2025-01-01") :=
  getClientExpiryByUUID_expiryDate (fun _ => (1735689600000, true, none))
    (newContext [("uuid", "abc")] [] []) "abc" 1735689600000 (by decide) (by decide) rfl rfl
    (by decide) (by decide)

theorem getClientExpiryByUUID_future_witness :
    (getClientExpiryByUUID (fun _ => (1735689600000, true, none)) 1735603200000
        (newContext [("uuid", "abc")] [] [])).field "expired" = some (Any.bool false)
    ∧ (getClientExpiryByUUID (fun _ => (1735689600000, true, none)) 1735603200000
        (newContext [("uuid", "abc")] [] [])).field "daysRemaining" = some (Any.int64 1)
    ∧ (getClientExpiryByUUID (fun _ => (1735689600000, true, none)) 1735603200000
        (newContext [("uuid", "abc")] [] [])).field "expiryDate"
        = some (Any.str "2025-01-01") :=
  have h := getClientExpiryByUUID_future (fun _ => (1735689600000, true, none)) 1735603200000
    (newContext [("uuid", "abc")] [] []) "abc" 1735689600000 (by decide) (by decide) rfl rfl
    (by decide) (by decide) (by decide)
  ⟨h.2.1, (h.2.2.2 rfl rfl).1, (h.2.2.2 rfl rfl).2⟩

theorem getClientExpiryByUUID_expiry_now_witness :
    (getClientExpiryByUUID (fun _ => (1735689600000, true, none)) 1735689600000
        (newContext [("uuid", "abc")] [] [])).Writer.status = 200
    ∧ (getClientExpiryByUUID (fun _ => (1735689600000, true, none)) 1735689600000
        (newContext [("uuid", "abc")] [] [])).field "expired" = some (Any.bool true)
    ∧ (getClientExpiryByUUID (fun _ => (1735689600000, true, none)) 1735689600000
        (newContext [("uuid", "abc")] [] [])).field "daysRemaining" = some (Any.int64 0) :=
  getClientExpiryByUUID_expiry_now (fun _ => (1735689600000, true, none)) 1735689600000
    (newContext [("uuid", "abc")] [] []) "abc" 1735689600000 (by decide) (by decide) rfl
    (by decide) rfl rfl

theorem getClientExpiryByUUID_expiry_yesterday_witness :
    (getClientExpiryByUUID (fun _ => (1735689600000, true, none)) 1735776000000
        (newContext [("uuid", "abc")] [] [])).Writer.status = 200
    ∧ (getClientExpiryByUUID (fun _ => (1735689600000, true, none)) 1735776000000
        (newContext [("uuid", "abc")] [] [])).field "expired" = some (Any.bool true)
    ∧ (getClientExpiryByUUID (fun _ => (1735689600000, true, none)) 1735776000000
        (newContext [("uuid", "abc")] [] [])).field "daysRemaining"
        = some (Any.int64 (-1)) :=
  getClientExpiryByUUID_expiry_yesterday (fun _ => (1735689600000, true, none)) 1735776000000
    (newContext [("uuid", "abc")] [] []) "abc" 1735689600000 (by decide) (by decide) rfl
    (by decide) rfl (by decide)

theorem getClientExpiryByUUID_echo_witness :
    (getClientExpiryByUUID (fun _ => (-5, true, none)) 1735776000000
        (newContext [("uuid", " abc ")] [] [])).field "uuid" = some (Any.str "abc")
    ∧ (getClientExpiryByUUID (fun _ => (-5, true, none)) 1735776000000
        (newContext [("uuid", " abc ")] [] [])).field "expiryTime" = some (Any.int64 (-5))
    ∧ (getClientExpiryByUUID (fun _ => (-5, true, none)) 1735776000000
        (newContext [("uuid", " abc ")] [] [])).resolverCalls = [] ++ ["abc"] :=
  getClientExpiryByUUID_echo (fun _ => (-5, true, none)) 1735776000000
    (newContext [("uuid", " abc ")] [] []) "abc" (by decide) rfl
    (by rw [getClientExpiryByUUID_found _ 1735776000000 _ "abc" (-5) (by decide)
      (by decide) rfl rfl])

theorem initRouter_table_witness :
    Handler.checkAPIAuth
      ∉ ({ Handlers := [Handler.other "gzip"], basePath := "/" } : RouterGroup).Handlers
        ++ [Handler.getClientExpiryByUUID] :=
  (initRouter_table [{ Method := "GET", Path := "/list", Handlers := [Handler.other "list"] }]
    [{ Method := "POST", Path := "/status", Handlers := [Handler.other "status"] }]
    { Handlers := [Handler.other "gzip"], basePath := "/" } [] (by decide)).2.1

theorem getClientExpiryByUUID_flag_matches_days_witness :
    ∃ (expired : Bool) (days : Int),
      (getClientExpiryByUUID (fun _ => (1735689600000, true, none)) 1735603200000
        (newContext [("uuid", "abc")] [] [])).field "expired" = some (Any.bool expired)
      ∧ (getClientExpiryByUUID (fun _ => (1735689600000, true, none)) 1735603200000
        (newContext [("uuid", "abc")] [] [])).field "daysRemaining" = some (Any.int64 days)
      ∧ (expired = true ↔ days ≤ 0)
      ∧ (expired = false ↔ 1 ≤ days) :=
  getClientExpiryByUUID_flag_matches_days (fun _ => (1735689600000, true, none)) 1735603200000
    (newContext [("uuid", "abc")] [] []) "abc" 1735689600000 (by decide) (by decide) rfl
    (by decide) rfl

theorem daysRemainingOf_exact_witness :
    daysRemainingOf (sub64 1735689600000 1735603200001)
        = -((-((1735689600000 : Int) - 1735603200001)) / 86400000)
    ∧ daysRemainingOf (sub64 1735689600000 1735603200001)
        = ⌈(((1735689600000 : Int) - 1735603200001 : Int) : ℚ) / 86400000⌉ :=
  daysRemainingOf_exact 1735689600000 1735603200001 (by norm_num)

end Controller
